import Mathlib

/-!
Shallow embedding of the account-balance bookkeeping core of the
personal-finance dashboard backend (controllers for transactions,
accounts, budgets, analytics and CSV upload), together with proofs of
the documented properties.

Monetary values are modelled as exact rationals (`ℚ`); the JavaScript
`Math.round(x * 100) / 100` setter used by the Mongoose schemas is
modelled by `jsRound2`, and `Math.round` by `jsRound0` (`Math.round x`
is `⌊x + 1/2⌋` for every real `x`, ties toward `+∞`).
Dates are modelled as integers (only their ordering is used by the
embedded code paths).  All entities belong to the single requesting
user: every controller filters each query by `userId`, so one user's
data is a closed system and ownership checks are identically true in
the model.
-/

namespace FinDash

/-- JavaScript `Math.round x`: `⌊x + 1/2⌋`, ties rounded toward `+∞`. -/
def jsRound0 (q : ℚ) : ℤ := ⌊q + 1/2⌋

/-- The Mongoose setter `Math.round(val * 100) / 100` used on
`Account.balance` and `Transaction.amount`: round to 2 decimal places. -/
def jsRound2 (q : ℚ) : ℚ := (jsRound0 (q * 100) : ℚ) / 100

/-- A rational is an exact multiple of a cent. -/
def Cent (q : ℚ) : Prop := (q * 100).den = 1

instance (q : ℚ) : Decidable (Cent q) := by
  unfold Cent; infer_instance

/-! ## Data model (from the Mongoose schemas in `src/models`) -/

/-- Transaction / category type: `income` or `expense`. -/
inductive TType where
  | income
  | expense
deriving DecidableEq, Repr

/-- Account type enum from the Account schema. -/
inductive AccType where
  | checking
  | savings
  | credit
  | investment
  | cash
deriving DecidableEq, Repr

/-- An `Account` document: the fields the verified code paths read or
write.  `balance` is always stored through the 2-decimal rounding
setter; `initialBalance` has no setter. -/
structure Account where
  name : String
  atype : AccType
  balance : ℚ
  initialBalance : ℚ
  creditLimit : ℚ
  isActive : Bool
deriving DecidableEq, Repr

/-- A `Category` document (name, type, soft-delete flag). -/
structure Category where
  name : String
  ctype : TType
  isActive : Bool
deriving DecidableEq, Repr

/-- A `Transaction` document.  `amount` is stored non-negative through
the 2-decimal rounding setter; the sign is implied by `ttype`.  The
`date`, `tags` and recurrence fields are not read by any verified code
path and are omitted. -/
structure Txn where
  accountId : ℕ
  categoryId : ℕ
  amount : ℚ
  ttype : TType
  description : String
deriving DecidableEq, Repr

/-- A `Budget` document (single expense category, date window, alert
threshold, soft-delete flag).  Dates are integers. -/
structure Budget where
  categoryId : ℕ
  name : String
  amount : ℚ
  startDate : ℤ
  endDate : ℤ
  alertThreshold : ℤ
  isActive : Bool
deriving DecidableEq, Repr

/-- Modelled from the spec: the Budget schema file is not under `src/`
(only its controller is); per §3 and the glossary, `isActive` is the
standard soft-delete flag and a newly created budget is active. -/
def budgetDefaultIsActive : Bool := true

/-! ## Keyed collections

Documents live in association lists `List (ℕ × α)` keyed by their ids,
in insertion order (Mongo default natural order for the embedded
queries).  `lookupA`, `setA` and `delA` model `findById` / `findOne`,
in-place update followed by `save()`, and `findByIdAndDelete`. -/

/-- Find the (first) document with the given id. -/
def lookupA {α : Type} (k : ℕ) : List (ℕ × α) → Option α
  | [] => none
  | p :: l => if p.1 = k then some p.2 else lookupA k l

/-- Replace the value stored under a key (no-op on absent keys). -/
def setA {α : Type} (l : List (ℕ × α)) (k : ℕ) (v : α) : List (ℕ × α) :=
  l.map (fun p => if p.1 = k then (k, v) else p)

/-- Remove the document with the given id. -/
def delA {α : Type} (l : List (ℕ × α)) (k : ℕ) : List (ℕ × α) :=
  l.filter (fun p => p.1 ≠ k)

/-! ## Database state and requests -/

/-- The persistent state of one user's data: every controller query
filters by `userId`, so this is the whole world an operation can see.
The `next*` counters model Mongo's generation of fresh object ids. -/
structure St where
  accounts : List (ℕ × Account)
  categories : List (ℕ × Category)
  txns : List (ℕ × Txn)
  budgets : List (ℕ × Budget)
  nextAccId : ℕ
  nextTxnId : ℕ
  nextBudgetId : ℕ
deriving DecidableEq, Repr

/-- HTTP outcome of an operation, abstracted to the cases the
controllers distinguish. -/
inductive Resp where
  /-- 200 success -/
  | ok
  /-- 201 created -/
  | created
  /-- 400 from express-validator or a malformed body -/
  | vfail
  /-- 404 entity missing, inactive, not owned, or type mismatch -/
  | notFound
  /-- 400 duplicate name / overlapping budget / amount rule -/
  | conflict
  /-- 500, an exception escaped (e.g. schema validation on save) -/
  | serverError
  /-- bulk-import report: imported, errors, total -/
  | bulk (imported errorCount total : ℕ)
deriving DecidableEq, Repr

/-- Signed effect of a transaction on its account's balance:
`+amount` for income, `-amount` for expense. -/
def signedAmt (t : Txn) : ℚ :=
  match t.ttype with
  | TType.income => t.amount
  | TType.expense => -t.amount

/-- Sum of signed effects of the transactions currently linked to the
account with id `a`. -/
def linkedSum (txns : List (ℕ × Txn)) (a : ℕ) : ℚ :=
  (txns.map (fun p => if p.2.accountId = a then signedAmt p.2 else 0)).sum

/-- Body of `POST /api/transactions`. -/
structure CreateTxnReq where
  accountId : ℕ
  categoryId : ℕ
  amount : ℚ
  ttype : TType
  description : String
deriving DecidableEq, Repr

/-- `createTransactionValidation` (express-validator): `amount` must be
a float strictly greater than 0 and the trimmed description nonempty
and at most 500 characters. -/
def createTxnValid (r : CreateTxnReq) : Bool :=
  decide (0 < r.amount) && decide (1 ≤ r.description.trim.length) &&
    decide (r.description.trim.length ≤ 500)

/-- Body of `PUT /api/transactions/:id`: each field optionally
present.  The handler iterates over exactly the submitted keys. -/
structure TxnUpdates where
  accountId : Option ℕ := none
  categoryId : Option ℕ := none
  amount : Option ℚ := none
  ttype : Option TType := none
  description : Option String := none
deriving DecidableEq, Repr

/-- `updateTransactionValidation`: the same field rules, each applied
only when the field is present. -/
def updateTxnValid (u : TxnUpdates) : Bool :=
  (match u.amount with
   | some q => decide (0 < q)
   | none => true) &&
  (match u.description with
   | some d => decide (1 ≤ d.trim.length) && decide (d.trim.length ≤ 500)
   | none => true)

/-- Body of `POST /api/accounts`. -/
structure CreateAccReq where
  name : String
  atype : AccType
  balance : ℚ
  creditLimit : ℚ
deriving DecidableEq, Repr

/-- `createAccountValidation`: trimmed name length 1..100 and a
non-negative credit limit. -/
def createAccValid (r : CreateAccReq) : Bool :=
  decide (1 ≤ r.name.trim.length) && decide (r.name.trim.length ≤ 100) &&
    decide (0 ≤ r.creditLimit)

/-- Body of `PUT /api/accounts/:id`.  `updateAccount` applies every
submitted key, so the unvalidated `initialBalance` and `isActive` keys
pass through to the document as well. -/
structure AccUpdates where
  name : Option String := none
  atype : Option AccType := none
  balance : Option ℚ := none
  creditLimit : Option ℚ := none
  initialBalance : Option ℚ := none
  isActive : Option Bool := none
deriving DecidableEq, Repr

/-- `updateAccountValidation`: only `name` (length), `type`, `balance`
(float) and `color` are validated; nothing else is checked or
stripped. -/
def updateAccValid (u : AccUpdates) : Bool :=
  match u.name with
  | some n => decide (1 ≤ n.trim.length) && decide (n.trim.length ≤ 100)
  | none => true

/-- One raw row of a bulk-import batch (`req.body.transactions[i]`).
An absent `amount` and the number `0` are both JavaScript-falsy. -/
structure RawRow where
  amount : Option ℚ := none
  description : String := ""
  date : String := ""
  category : Option String := none
deriving DecidableEq, Repr

/-- Body of `POST /api/budgets`. -/
structure CreateBudgetReq where
  categoryId : ℕ
  name : String
  amount : ℚ
  startDate : ℤ
  endDate : ℤ
  alertThreshold : ℤ
deriving DecidableEq, Repr

/-- `createBudgetValidation`: name 1..100, amount > 0, alert threshold
an integer in 0..100. -/
def createBudgetValid (r : CreateBudgetReq) : Bool :=
  decide (1 ≤ r.name.trim.length) && decide (r.name.trim.length ≤ 100) &&
    decide (0 < r.amount) && decide (0 ≤ r.alertThreshold) &&
    decide (r.alertThreshold ≤ 100)

/-- Body of `PUT /api/budgets/:id`. -/
structure BudgetUpdates where
  categoryId : Option ℕ := none
  name : Option String := none
  amount : Option ℚ := none
  startDate : Option ℤ := none
  endDate : Option ℤ := none
  alertThreshold : Option ℤ := none
  isActive : Option Bool := none
deriving DecidableEq, Repr

/-- `updateBudgetValidation` (all optional). -/
def updateBudgetValid (u : BudgetUpdates) : Bool :=
  (match u.amount with
   | some q => decide (0 < q)
   | none => true) &&
  (match u.name with
   | some n => decide (1 ≤ n.trim.length) && decide (n.trim.length ≤ 100)
   | none => true)

/-! ## Transaction controller (`transactionController.js`) -/

/-- The transaction document `createTransaction` persists: the
absolute amount through the 2-decimal setter, the description
trimmed. -/
def mkTxnOf (r : CreateTxnReq) : Txn :=
  { accountId := r.accountId, categoryId := r.categoryId,
    amount := jsRound2 |r.amount|, ttype := r.ttype,
    description := r.description.trim }

/-- `createTransaction`: validate, check account (active) and category
(active, same type), reject non-positive amounts, persist the
transaction (amount through the 2-decimal setter), then adjust the
account balance by the raw absolute amount (through the balance
setter). -/
def createTransaction (st : St) (r : CreateTxnReq) : St × Resp :=
  if ¬ (createTxnValid r = true) then (st, Resp.vfail)
  else
    match lookupA r.accountId st.accounts with
    | none => (st, Resp.notFound)
    | some account =>
      if ¬ (account.isActive = true) then (st, Resp.notFound)
      else
        match lookupA r.categoryId st.categories with
        | none => (st, Resp.notFound)
        | some category =>
          if ¬ (category.isActive = true ∧ category.ctype = r.ttype) then (st, Resp.notFound)
          else
            let transactionAmount := |r.amount|
            if transactionAmount ≤ 0 then (st, Resp.conflict)
            else
              let txn : Txn := mkTxnOf r
              let newBalance :=
                match r.ttype with
                | TType.income => jsRound2 (account.balance + transactionAmount)
                | TType.expense => jsRound2 (account.balance - transactionAmount)
              ({ st with
                 txns := (st.nextTxnId, txn) :: st.txns,
                 nextTxnId := st.nextTxnId + 1,
                 accounts := setA st.accounts r.accountId { account with balance := newBalance } },
               Resp.created)

/-- The key-iteration loop of `updateTransaction`: apply exactly the
submitted fields to the document (`amount` through `Math.abs` and the
rounding setter, `description` trimmed, the rest verbatim). -/
def updTxn (t : Txn) (u : TxnUpdates) : Txn :=
  { accountId := u.accountId.getD t.accountId,
    categoryId := u.categoryId.getD t.categoryId,
    amount := (u.amount.map (fun q => jsRound2 |q|)).getD t.amount,
    ttype := u.ttype.getD t.ttype,
    description := (u.description.map String.trim).getD t.description }

/-- `updateTransaction`: validate, look the transaction up, verify a
changed account and a submitted category (against the submitted or
existing type), apply exactly the submitted keys, save the
transaction, then reverse the old effect on the old account and apply
the new effect on the new account (the same document when the account
did not change).  The transaction is saved before the balance writes,
so a missing account surfaces as a 500 with the transaction already
updated — unreachable from consistent states. -/
def updateTransaction (st : St) (txnId : ℕ) (u : TxnUpdates) : St × Resp :=
  if ¬ (updateTxnValid u = true) then (st, Resp.vfail)
  else
    match lookupA txnId st.txns with
    | none => (st, Resp.notFound)
    | some t =>
      let oldAmount := t.amount
      let oldType := t.ttype
      let oldAccountId := t.accountId
      let accountOk :=
        match u.accountId with
        | some na =>
          if na = oldAccountId then true
          else
            match lookupA na st.accounts with
            | some a => a.isActive
            | none => false
        | none => true
      if ¬ (accountOk = true) then (st, Resp.notFound)
      else
        let categoryOk :=
          match u.categoryId with
          | some nc =>
            match lookupA nc st.categories with
            | some c => c.isActive && decide (c.ctype = (u.ttype.getD t.ttype))
            | none => false
          | none => true
        if ¬ (categoryOk = true) then (st, Resp.notFound)
        else
          let t' : Txn := updTxn t u
          let txns' := setA st.txns txnId t'
          match lookupA oldAccountId st.accounts with
          | none => ({ st with txns := txns' }, Resp.serverError)
          | some oldAccount =>
            let newAccountId := t'.accountId
            if oldAccountId = newAccountId then
              let b1 :=
                match oldType with
                | TType.income => jsRound2 (oldAccount.balance - oldAmount)
                | TType.expense => jsRound2 (oldAccount.balance + oldAmount)
              let b2 :=
                match t'.ttype with
                | TType.income => jsRound2 (b1 + t'.amount)
                | TType.expense => jsRound2 (b1 - t'.amount)
              ({ st with
                 txns := txns',
                 accounts := setA st.accounts oldAccountId { oldAccount with balance := b2 } },
               Resp.ok)
            else
              match lookupA newAccountId st.accounts with
              | none => ({ st with txns := txns' }, Resp.serverError)
              | some newAccount =>
                let ob :=
                  match oldType with
                  | TType.income => jsRound2 (oldAccount.balance - oldAmount)
                  | TType.expense => jsRound2 (oldAccount.balance + oldAmount)
                let nb :=
                  match t'.ttype with
                  | TType.income => jsRound2 (newAccount.balance + t'.amount)
                  | TType.expense => jsRound2 (newAccount.balance - t'.amount)
                ({ st with
                   txns := txns',
                   accounts := setA (setA st.accounts oldAccountId { oldAccount with balance := ob })
                     newAccountId { newAccount with balance := nb } },
                 Resp.ok)

/-- `deleteTransaction`: reverse the transaction's effect on its
account (when the account still exists), then remove the record. -/
def deleteTransaction (st : St) (txnId : ℕ) : St × Resp :=
  match lookupA txnId st.txns with
  | none => (st, Resp.notFound)
  | some t =>
    let accounts' :=
      match lookupA t.accountId st.accounts with
      | none => st.accounts
      | some account =>
        let b :=
          match t.ttype with
          | TType.income => jsRound2 (account.balance - t.amount)
          | TType.expense => jsRound2 (account.balance + t.amount)
        setA st.accounts t.accountId { account with balance := b }
    ({ st with accounts := accounts', txns := delA st.txns txnId }, Resp.ok)

/-! ## Account controller -/

/-- The account document `createAccount` persists: the balance stored
through the 2-decimal setter, and the `pre('save')` hook snapshotting
`initialBalance` from the (already rounded) balance on first
persistence. -/
def mkAccountOf (r : CreateAccReq) : Account :=
  { name := r.name.trim, atype := r.atype,
    balance := jsRound2 r.balance,
    initialBalance := jsRound2 r.balance,
    creditLimit := if r.atype = AccType.credit then r.creditLimit else 0,
    isActive := true }

/-- `createAccount`: validate, reject a duplicate active name, then
persist. -/
def createAccount (st : St) (r : CreateAccReq) : St × Resp :=
  if ¬ (createAccValid r = true) then (st, Resp.vfail)
  else
    if st.accounts.any (fun p => p.2.isActive && decide (p.2.name = r.name.trim)) then
      (st, Resp.conflict)
    else
      let account : Account := mkAccountOf r
      ({ st with
         accounts := st.accounts ++ [(st.nextAccId, account)],
         nextAccId := st.nextAccId + 1 },
       Resp.created)

/-- The key-iteration loop of `updateAccount`: apply every submitted
key (`balance` through the rounding setter, `name` trimmed,
everything else — including the unvalidated `initialBalance` and
`isActive` keys — verbatim). -/
def updAcc (account : Account) (u : AccUpdates) : Account :=
  { name := (u.name.map String.trim).getD account.name,
    atype := u.atype.getD account.atype,
    balance := (u.balance.map jsRound2).getD account.balance,
    creditLimit := u.creditLimit.getD account.creditLimit,
    initialBalance := u.initialBalance.getD account.initialBalance,
    isActive := u.isActive.getD account.isActive }

/-- The duplicate-name check of `updateAccount`: only when a name is
submitted and differs from the current one, look for another active
account with the new (trimmed) name. -/
def nameClashB (accounts : List (ℕ × Account)) (accId : ℕ) (account : Account)
    (u : AccUpdates) : Bool :=
  match u.name with
  | some n =>
    if n.trim = account.name then false
    else accounts.any (fun p =>
      decide (p.1 ≠ accId) && p.2.isActive && decide (p.2.name = n.trim))
  | none => false

/-- `updateAccount`: validate, check a changed name for duplicates,
then apply every submitted key and save.  A negative credit limit is
rejected by the schema validator at save time, leaving the document
unchanged. -/
def updateAccount (st : St) (accId : ℕ) (u : AccUpdates) : St × Resp :=
  if ¬ (updateAccValid u = true) then (st, Resp.vfail)
  else
    match lookupA accId st.accounts with
    | none => (st, Resp.notFound)
    | some account =>
      if nameClashB st.accounts accId account u then (st, Resp.conflict)
      else
        let account' : Account := updAcc account u
        if account'.creditLimit < 0 then (st, Resp.serverError)
        else ({ st with accounts := setA st.accounts accId account' }, Resp.ok)

/-- `deleteAccount`: deactivate when transactions reference the
account, otherwise remove the record. -/
def deleteAccount (st : St) (accId : ℕ) : St × Resp :=
  match lookupA accId st.accounts with
  | none => (st, Resp.notFound)
  | some account =>
    if st.txns.any (fun p => p.2.accountId = accId) then
      ({ st with accounts := setA st.accounts accId { account with isActive := false } }, Resp.ok)
    else
      ({ st with accounts := delA st.accounts accId }, Resp.ok)

/-! ## Bulk import (`bulkImportTransactions`) -/

/-- Character-list prefix test. -/
def isPrefixL : List Char → List Char → Bool
  | [], _ => true
  | _ :: _, [] => false
  | a :: as, b :: bs => a = b && isPrefixL as bs

/-- Character-list infix test. -/
def isInfixL (sub : List Char) : List Char → Bool
  | [] => sub.isEmpty
  | b :: bs => isPrefixL sub (b :: bs) || isInfixL sub bs

/-- `String.includes` as used for category matching. -/
def strContains (s sub : String) : Bool :=
  isInfixL sub.toList s.toList

/-- Per-row normalization: the row fails with `Missing required
fields` when `amount`, `description` or `date` is falsy, with
`Invalid amount` when the absolute amount is not positive, and with
`No <type> category found` when no active category of the inferred
type exists; otherwise it becomes a transaction on the first active
account.  Returns the valid transactions in order and the number of
failed rows. -/
def processRows (firstAccId : ℕ) (cats : List (ℕ × Category)) :
    List RawRow → List Txn × ℕ
  | [] => ([], 0)
  | row :: rest =>
    let pr := processRows firstAccId cats rest
    let valid := pr.1
    let errs := pr.2
    let truthy :=
      (match row.amount with
       | some q => decide (q ≠ 0)
       | none => false) && decide (row.description ≠ "") && decide (row.date ≠ "")
    if ¬ (truthy = true) then (valid, errs + 1)
    else
      match row.amount with
      | none => (valid, errs + 1)
      | some q =>
        let amount := |q|
        if amount ≤ 0 then (valid, errs + 1)
        else
          let ttype := if 0 ≤ q then TType.income else TType.expense
          let catName :=
            (match row.category with
             | some s => if s = "" then "other" else s
             | none => "other").toLower
          let category :=
            match cats.find? (fun p =>
              strContains p.2.name.toLower catName && decide (p.2.ctype = ttype)) with
            | some c => some c
            | none => cats.find? (fun p => decide (p.2.ctype = ttype))
          match category with
          | none => (valid, errs + 1)
          | some (cid, _) =>
            ({ accountId := firstAccId, categoryId := cid, amount := amount,
               ttype := ttype, description := row.description.trim } :: valid, errs)

/-- `insertMany`: persist the valid transactions with fresh ids; the
schema setter rounds each stored amount to 2 decimals. -/
def enumTxns (n : ℕ) : List Txn → List (ℕ × Txn)
  | [] => []
  | t :: ts => (n, { t with amount := jsRound2 t.amount }) :: enumTxns (n + 1) ts

/-- The `accountUpdates` map: signed raw amounts aggregated per
account id, in first-seen order. -/
def addChange (m : List (ℕ × ℚ)) (k : ℕ) (v : ℚ) : List (ℕ × ℚ) :=
  match lookupA k m with
  | some c => setA m k (c + v)
  | none => m ++ [(k, v)]

/-- Aggregate the signed effects of a batch per account. -/
def accountChanges (ts : List Txn) : List (ℕ × ℚ) :=
  ts.foldl (fun m t => addChange m t.accountId (signedAmt t)) []

/-- Apply each aggregated change with `findByIdAndUpdate`'s
`$inc` (a server-side increment; the document's rounding setter does
not run on update operators). -/
def applyChanges (accs : List (ℕ × Account)) : List (ℕ × ℚ) → List (ℕ × Account)
  | [] => accs
  | (k, ch) :: rest =>
    let accs' :=
      match lookupA k accs with
      | some a => setA accs k { a with balance := a.balance + ch }
      | none => accs
    applyChanges accs' rest

/-- `bulkImportTransactions`: reject an empty batch or a user with no
active account; normalize each row independently; insert the valid
rows together; aggregate balance adjustments per account and apply
each once; report imported and failed counts. -/
def bulkImportTransactions (st : St) (rows : List RawRow) : St × Resp :=
  if rows.isEmpty then (st, Resp.vfail)
  else
    match st.accounts.filter (fun p => p.2.isActive) with
    | [] => (st, Resp.vfail)
    | firstAcc :: _ =>
      let userCategories := st.categories.filter (fun p => p.2.isActive)
      let pr := processRows firstAcc.1 userCategories rows
      let validTxns := pr.1
      let errs := pr.2
      let st' :=
        if validTxns.isEmpty then st
        else
          { st with
            txns := st.txns ++ enumTxns st.nextTxnId validTxns,
            nextTxnId := st.nextTxnId + validTxns.length,
            accounts := applyChanges st.accounts (accountChanges validTxns) }
      (st', Resp.bulk validTxns.length errs rows.length)

/-! ## Budget controller (`budgetController.js`) -/

/-- Two date windows overlap exactly when the stored one starts no
later than the requested end and ends no earlier than the requested
start (the `$or` query in `createBudget`). -/
def overlaps (b : Budget) (startDate endDate : ℤ) : Bool :=
  decide (b.startDate ≤ endDate) && decide (b.endDate ≥ startDate)

/-- The budget document `createBudget` persists. -/
def mkBudgetOf (r : CreateBudgetReq) : Budget :=
  { categoryId := r.categoryId, name := r.name.trim, amount := r.amount,
    startDate := r.startDate, endDate := r.endDate,
    alertThreshold := r.alertThreshold, isActive := budgetDefaultIsActive }

/-- `createBudget`: validate, require an active expense category,
reject a window overlapping any active budget of the same category,
reject an empty window, then persist (new budgets are active). -/
def createBudget (st : St) (r : CreateBudgetReq) : St × Resp :=
  if ¬ (createBudgetValid r = true) then (st, Resp.vfail)
  else
    match lookupA r.categoryId st.categories with
    | none => (st, Resp.notFound)
    | some category =>
      if ¬ (category.ctype = TType.expense ∧ category.isActive = true) then (st, Resp.notFound)
      else
        if st.budgets.any (fun p =>
            decide (p.2.categoryId = r.categoryId) && p.2.isActive &&
              overlaps p.2 r.startDate r.endDate) then
          (st, Resp.conflict)
        else
          if r.endDate ≤ r.startDate then (st, Resp.vfail)
          else
            let budget : Budget := mkBudgetOf r
            ({ st with
               budgets := st.budgets ++ [(st.nextBudgetId, budget)],
               nextBudgetId := st.nextBudgetId + 1 },
             Resp.created)

/-- `updateBudget`: validate, look the budget up, verify a changed
category, check only that the effective window is nonempty — there is
no overlap re-check — then apply every submitted key and save. -/
def updateBudget (st : St) (budgetId : ℕ) (u : BudgetUpdates) : St × Resp :=
  if ¬ (updateBudgetValid u = true) then (st, Resp.vfail)
  else
    match lookupA budgetId st.budgets with
    | none => (st, Resp.notFound)
    | some b =>
      let categoryOk :=
        match u.categoryId with
        | some nc =>
          if nc = b.categoryId then true
          else
            match lookupA nc st.categories with
            | some c => c.isActive && decide (c.ctype = TType.expense)
            | none => false
        | none => true
      if ¬ (categoryOk = true) then (st, Resp.notFound)
      else
        let newStart := u.startDate.getD b.startDate
        let newEnd := u.endDate.getD b.endDate
        if newEnd ≤ newStart then (st, Resp.vfail)
        else
          let b' : Budget :=
            { categoryId := u.categoryId.getD b.categoryId,
              name := (u.name.map String.trim).getD b.name,
              amount := u.amount.getD b.amount,
              startDate := newStart, endDate := newEnd,
              alertThreshold := u.alertThreshold.getD b.alertThreshold,
              isActive := u.isActive.getD b.isActive }
          ({ st with budgets := setA st.budgets budgetId b' }, Resp.ok)

/-- `deleteBudget`: remove the record. -/
def deleteBudget (st : St) (budgetId : ℕ) : St × Resp :=
  match lookupA budgetId st.budgets with
  | none => (st, Resp.notFound)
  | some _ => ({ st with budgets := delA st.budgets budgetId }, Resp.ok)

/-! ## Operations and runs -/

/-- One inbound request against the embedded controllers. -/
inductive Op where
  | createAcc (r : CreateAccReq)
  | updateAcc (accId : ℕ) (u : AccUpdates)
  | deleteAcc (accId : ℕ)
  | createTxn (r : CreateTxnReq)
  | updateTxn (txnId : ℕ) (u : TxnUpdates)
  | deleteTxn (txnId : ℕ)
  | bulkImport (rows : List RawRow)
  | createBudgetOp (r : CreateBudgetReq)
  | updateBudgetOp (budgetId : ℕ) (u : BudgetUpdates)
  | deleteBudgetOp (budgetId : ℕ)
deriving DecidableEq, Repr

/-- Dispatch a request to its controller. -/
def step (st : St) : Op → St × Resp
  | Op.createAcc r => createAccount st r
  | Op.updateAcc accId u => updateAccount st accId u
  | Op.deleteAcc accId => deleteAccount st accId
  | Op.createTxn r => createTransaction st r
  | Op.updateTxn txnId u => updateTransaction st txnId u
  | Op.deleteTxn txnId => deleteTransaction st txnId
  | Op.bulkImport rows => bulkImportTransactions st rows
  | Op.createBudgetOp r => createBudget st r
  | Op.updateBudgetOp budgetId u => updateBudget st budgetId u
  | Op.deleteBudgetOp budgetId => deleteBudget st budgetId

/-- Run a sequence of requests, keeping only the states. -/
def run (st : St) : List Op → St
  | [] => st
  | op :: ops => run (step st op).1 ops

/-! ## Financial health score (`analyticsController.js`) -/

/-- The five 0–100 sub-scores and the rounded overall score. -/
structure HealthScores where
  savingsRate : ℚ
  budgetAdherence : ℚ
  emergencyFund : ℚ
  expenseControl : ℚ
  debtManagement : ℚ
  overallScore : ℤ
deriving DecidableEq, Repr

/-- The emergency-fund sub-score:
`Math.min(100, emergencyFundRatio * 100)` where the ratio is
`totalBalance / (monthlyExpenses * 3)`, or `1` when last month's
expenses are zero.  There is no lower clamp. -/
def emergencyFundScore (totalBalance monthlyExpenses : ℚ) : ℚ :=
  let fundMonths := if 0 < monthlyExpenses then totalBalance / (monthlyExpenses * 3) else 1
  min 100 (fundMonths * 100)

/-- `getFinancialHealth`, over the query results it aggregates: last
month's transactions, the user's accounts (the controller queries
active ones, modelled by filtering here), and the `(spent, budgeted)`
pair of each active budget whose window includes today (`spent` is
the expense aggregate the controller computes per budget). -/
def getFinancialHealth (lastMonthTxns : List Txn) (accounts : List (ℕ × Account))
    (budgetsSpent : List (ℚ × ℚ)) : HealthScores :=
  let income := ((lastMonthTxns.filter (fun t => t.ttype = TType.income)).map Txn.amount).sum
  let expenses := ((lastMonthTxns.filter (fun t => t.ttype = TType.expense)).map Txn.amount).sum
  let savingsRate := if 0 < income then (income - expenses) / income * 100 else 0
  let expenseShare := if 0 < income then expenses / income * 100 else 100
  let active := accounts.filter (fun p => p.2.isActive)
  let totalBalance := (active.map (fun p => p.2.balance)).sum
  let budgetScore :=
    if budgetsSpent.isEmpty then (100 : ℚ)
    else
      let totalVariance := (budgetsSpent.map (fun p => |p.1 - p.2| / p.2)).sum
      max 0 (100 - totalVariance / (budgetsSpent.length : ℚ) * 100)
  let creditAccounts := active.filter (fun p => p.2.atype = AccType.credit)
  let totalDebt := (creditAccounts.map (fun p => |p.2.balance|)).sum
  let debtToIncomePct := if 0 < income then totalDebt / income * 100 else 0
  let scores : HealthScores :=
    { savingsRate := min 100 (max 0 (savingsRate * 5)),
      budgetAdherence := (jsRound0 budgetScore : ℚ),
      emergencyFund := emergencyFundScore totalBalance expenses,
      expenseControl := max 0 (100 - expenseShare),
      debtManagement := max 0 (100 - debtToIncomePct * 2),
      overallScore := 0 }
  { scores with
    overallScore := jsRound0
      (scores.savingsRate * (25/100) + scores.budgetAdherence * (25/100) +
        scores.emergencyFund * (20/100) + scores.expenseControl * (15/100) +
        scores.debtManagement * (15/100)) }

/-! ## CSV upload (`uploadController.js`) -/

/-- A parsed CSV row after column-name normalization, restricted to
the columns `mapCsvToTransactions` reads (amount, description, date,
category, type; the further aliases merge into the same fields). -/
structure CsvRow where
  amount : Option ℚ := none
  description : Option String := none
  date : Option String := none
  category : Option String := none
  rtype : Option String := none
deriving DecidableEq, Repr

/-- Result of the csv-parser stream: the row list, or a stream error. -/
inductive ParseOutcome where
  | ok (rows : List CsvRow)
  | failed
deriving DecidableEq, Repr

/-- A provisional transaction produced for client preview. -/
structure MappedTxn where
  amount : ℚ
  description : String
  date : String
  category : String
  ttype : TType
deriving DecidableEq, Repr

/-- JavaScript `a || b` on an optional string field: the fallback is
used when the field is absent or empty. -/
def strOr (o : Option String) (fb : String) : String :=
  match o with
  | some s => if s = "" then fb else s
  | none => fb

/-- `mapCsvToTransactions` on one row (`today` is the current date the
code substitutes for a missing date column).  The mapping never
throws, so the trailing `filter(Boolean)` keeps every row. -/
def mapCsvRow (today : String) (i : ℕ) (r : CsvRow) : MappedTxn :=
  let amount := r.amount.getD 0
  let description := strOr r.description ("Transaction " ++ toString (i + 1))
  let date := strOr r.date today
  let category := strOr r.category "Other"
  let ttype :=
    if 0 < amount ∨ r.rtype = some "income" then TType.income else TType.expense
  { amount := |amount|, description := description.trim, date := date,
    category := category.trim, ttype := ttype }

/-- `mapCsvToTransactions` over the whole parse result. -/
def mapCsvToTransactions (today : String) (rows : List CsvRow) : List MappedTxn :=
  mapFrom 0 rows
where
  mapFrom (i : ℕ) : List CsvRow → List MappedTxn
    | [] => []
    | r :: rest => mapCsvRow today i r :: mapFrom (i + 1) rest

/-- What became of one upload request: whether multer stored a
temporary file, whether the handler removed it before responding, and
the response. -/
structure UploadOutcome where
  stored : Bool
  removed : Bool
  resp : Resp
  count : ℕ
deriving DecidableEq, Repr

/-- The multer `fileFilter`: only these spreadsheet extensions are
ever written to the uploads directory. -/
def multerAccepts (ext : String) : Bool :=
  ext.toLower = ".csv" || ext.toLower = ".xlsx" || ext.toLower = ".xls"

/-- `uploadTransactions` for a stored file with the given original
extension: the CSV branch parses, deletes the temporary file, and
responds (400 when no transaction was produced, 500 when the parser
failed — the inner catch deletes the file first); the non-CSV branch
returns 400 `Excel files not yet supported` before the cleanup line. -/
def uploadStored (today ext : String) (parse : ParseOutcome) : UploadOutcome :=
  if ext.toLower = ".csv" then
    match parse with
    | ParseOutcome.ok rows =>
      let transactions := mapCsvToTransactions today rows
      if transactions.length = 0 then
        { stored := true, removed := true, resp := Resp.vfail, count := 0 }
      else
        { stored := true, removed := true, resp := Resp.ok, count := transactions.length }
    | ParseOutcome.failed =>
      { stored := true, removed := true, resp := Resp.serverError, count := 0 }
  else
    { stored := true, removed := false, resp := Resp.vfail, count := 0 }

/-- A whole upload request: no file, a file multer refuses (never
stored), or a stored file handed to `uploadTransactions`. -/
def uploadRequest (today : String) (file : Option (String × ParseOutcome)) : UploadOutcome :=
  match file with
  | none => { stored := false, removed := false, resp := Resp.vfail, count := 0 }
  | some (ext, parse) =>
    if ¬ (multerAccepts ext = true) then
      { stored := false, removed := false, resp := Resp.vfail, count := 0 }
    else uploadStored today ext parse

/-! ## Invariants -/

/-- Documented balance invariant (§3): every account's stored balance
equals its initial balance plus the signed sum of the transactions
currently linked to it. -/
def BalInv (st : St) : Prop :=
  ∀ p ∈ st.accounts, p.2.balance = p.2.initialBalance + linkedSum st.txns p.1

/-- All stored account balances are exact cent amounts (the rounding
setter runs on every document write). -/
def CentAccounts (st : St) : Prop := ∀ p ∈ st.accounts, Cent p.2.balance

/-- All stored transaction amounts are exact cent amounts. -/
def CentTxns (st : St) : Prop := ∀ p ∈ st.txns, Cent p.2.amount

/-- Every transaction's owning account exists (referential
integrity: accounts with transactions are never hard-deleted). -/
def TxnAccountsExist (st : St) : Prop :=
  ∀ p ∈ st.txns, (lookupA p.2.accountId st.accounts).isSome = true

/-- Stored transaction ids are below the fresh-id counter. -/
def TxnKeysBound (st : St) : Prop := ∀ p ∈ st.txns, p.1 < st.nextTxnId

/-- Stored transaction ids are pairwise distinct. -/
def TxnKeysNodup (st : St) : Prop := (st.txns.map Prod.fst).Nodup

/-- Well-formedness of a state: the balance invariant together with
the structural facts the transaction controller maintains. -/
def StInv (st : St) : Prop :=
  BalInv st ∧ CentAccounts st ∧ CentTxns st ∧ TxnAccountsExist st ∧
    TxnKeysBound st ∧ TxnKeysNodup st

/-- The operation is a transaction create/update/delete whose
submitted amount (when any) is an exact cent amount — floating-point
inputs below cent precision are outside the exact-arithmetic model. -/
def TxnOpCentB : Op → Bool
  | Op.createTxn r => decide (Cent r.amount)
  | Op.updateTxn _ u =>
    match u.amount with
    | some q => decide (Cent q)
    | none => true
  | Op.deleteTxn _ => true
  | _ => false

/-- Documented budget invariant (§3): no two distinct active budgets
of the same category have overlapping date windows. -/
def NoBudgetOverlap (st : St) : Prop :=
  ∀ p ∈ st.budgets, ∀ q ∈ st.budgets,
    p.1 ≠ q.1 → p.2.isActive = true → q.2.isActive = true →
    p.2.categoryId = q.2.categoryId →
    ¬ (p.2.startDate ≤ q.2.endDate ∧ p.2.endDate ≥ q.2.startDate)

/-- Stored budget ids are below the fresh-id counter. -/
def BudgetKeysBound (st : St) : Prop := ∀ p ∈ st.budgets, p.1 < st.nextBudgetId

/-- Signed total of a batch of normalized rows. -/
def totalSigned (ts : List Txn) : ℚ := (ts.map signedAmt).sum

/-- The raw signed amount a create request adds to the account
balance (before the balance setter rounds the sum). -/
def rawSigned (r : CreateTxnReq) : ℚ :=
  match r.ttype with
  | TType.income => |r.amount|
  | TType.expense => -|r.amount|

/-- Sum of the amounts of the income transactions currently linked to
account `a`. -/
def incomeSum (txns : List (ℕ × Txn)) (a : ℕ) : ℚ :=
  (txns.map (fun p =>
    if p.2.accountId = a ∧ p.2.ttype = TType.income then p.2.amount else 0)).sum

/-- Sum of the amounts of the expense transactions currently linked to
account `a`. -/
def expenseSum (txns : List (ℕ × Txn)) (a : ℕ) : ℚ :=
  (txns.map (fun p =>
    if p.2.accountId = a ∧ p.2.ttype = TType.expense then p.2.amount else 0)).sum

instance (st : St) : Decidable (BalInv st) := by
  unfold BalInv
  infer_instance

instance (st : St) : Decidable (StInv st) := by
  unfold StInv BalInv CentAccounts CentTxns TxnAccountsExist TxnKeysBound TxnKeysNodup
  infer_instance

instance (st : St) : Decidable (NoBudgetOverlap st) := by
  unfold NoBudgetOverlap
  infer_instance

instance (st : St) : Decidable (BudgetKeysBound st) := by
  unfold BudgetKeysBound
  infer_instance

/-- The sample account used by concrete instances. -/
def mainAcc : Account :=
  { name := "Main", atype := AccType.checking, balance := 100,
    initialBalance := 100, creditLimit := 0, isActive := true }

/-- A small populated database used to exercise the theorems: one
active checking account and one category of each type. -/
def sampleSt : St :=
  { accounts := [(1, mainAcc)],
    categories :=
      [(10, { name := "Salary", ctype := TType.income, isActive := true }),
       (11, { name := "Food", ctype := TType.expense, isActive := true })],
    txns := [], budgets := [],
    nextAccId := 2, nextTxnId := 0, nextBudgetId := 0 }

/-- A sample request sequence: two creates, an amount update, a
delete. -/
def sampleOps : List Op :=
  [Op.createTxn
     { accountId := 1, categoryId := 10, amount := 25,
       ttype := TType.income, description := "pay" },
   Op.createTxn
     { accountId := 1, categoryId := 11, amount := 40,
       ttype := TType.expense, description := "food" },
   Op.updateTxn 0 { amount := some 30 },
   Op.deleteTxn 1]

/-- The two-row bulk-import batch from the spec's testable
properties: a valid row of +100 and a row with a negative amount and
empty description/date. -/
def c3rows : List RawRow :=
  [{ amount := some 100, description := "Pay", date := "2024-01-01" },
   { amount := some (-1), description := "", date := "" }]

/-- Last month's transactions for the financial-health example:
income 2000, expenses 1600. -/
def c4txns : List Txn :=
  [{ accountId := 1, categoryId := 10, amount := 2000, ttype := TType.income,
     description := "salary" },
   { accountId := 1, categoryId := 11, amount := 1600, ttype := TType.expense,
     description := "rent" }]

/-- Accounts for the financial-health example: one active non-credit
account with balance 4800. -/
def c4accounts : List (ℕ × Account) :=
  [(1, { name := "Main", atype := AccType.checking, balance := 4800,
         initialBalance := 0, creditLimit := 0, isActive := true })]

/-- Which operations the `initialBalance` frame property quantifies
over: transaction create/update/delete, bulk import, and account
updates whose payload does not contain an `initialBalance` key. -/
def InitPreservingB : Op → Bool
  | Op.createTxn _ => true
  | Op.updateTxn _ _ => true
  | Op.deleteTxn _ => true
  | Op.bulkImport _ => true
  | Op.updateAcc _ u => u.initialBalance.isNone
  | _ => false

/-! ## Basic lemmas: cent arithmetic and keyed collections -/

theorem Cent.intMul (q : ℚ) (h : Cent q) : ∃ k : ℤ, q * 100 = (k : ℚ) := by
  refine ⟨(q * 100).num, ?_⟩
  exact (Rat.den_eq_one_iff _).mp h |>.symm

theorem Cent.of_intMul (q : ℚ) (k : ℤ) (h : q * 100 = (k : ℚ)) : Cent q := by
  unfold Cent; rw [h]; exact Rat.den_intCast k

theorem Cent.add {a b : ℚ} (ha : Cent a) (hb : Cent b) : Cent (a + b) := by
  obtain ⟨m, hm⟩ := Cent.intMul a ha
  obtain ⟨n, hn⟩ := Cent.intMul b hb
  refine Cent.of_intMul _ (m + n) ?_
  push_cast
  rw [add_mul, hm, hn]

theorem Cent.neg {a : ℚ} (ha : Cent a) : Cent (-a) := by
  obtain ⟨m, hm⟩ := Cent.intMul a ha
  refine Cent.of_intMul _ (-m) ?_
  push_cast
  rw [neg_mul, hm]

theorem Cent.sub {a b : ℚ} (ha : Cent a) (hb : Cent b) : Cent (a - b) := by
  rw [sub_eq_add_neg]; exact ha.add hb.neg

theorem Cent.jsRound2 (q : ℚ) : Cent (jsRound2 q) := by
  refine Cent.of_intMul _ (jsRound0 (q * 100)) ?_
  unfold FinDash.jsRound2
  field_simp

/-- Rounding to cents is the identity on exact cent amounts. -/
theorem jsRound2_eq_self {q : ℚ} (h : Cent q) : jsRound2 q = q := by
  obtain ⟨k, hk⟩ := Cent.intMul q h
  unfold jsRound2 jsRound0
  rw [hk]
  have h2 : ⌊(k : ℚ) + 1/2⌋ = k := by
    rw [add_comm, Int.floor_add_int]
    norm_num
  rw [h2]
  have : (q * 100) / 100 = q := by ring
  rw [← hk, this]

/-- Splitting lemma for the balance setter: adding any rational to an
exact cent amount and rounding is the same as adding its rounding. -/
theorem jsRound2_add_of_cent {b : ℚ} (hb : Cent b) (a : ℚ) :
    jsRound2 (b + a) = b + jsRound2 a := by
  obtain ⟨k, hk⟩ := Cent.intMul b hb
  unfold jsRound2 jsRound0
  have h1 : (b + a) * 100 = (k : ℚ) + a * 100 := by rw [add_mul, hk]
  have h2 : (k : ℚ) + a * 100 + 1/2 = (a * 100 + 1/2) + (k : ℚ) := by ring
  rw [h1, h2, Int.floor_add_int]
  push_cast
  have hb100 : b = (k : ℚ) / 100 := by
    field_simp at hk ⊢
    linarith [hk]
  rw [hb100]
  ring

@[simp] theorem lookupA_nil {α : Type} (k : ℕ) : lookupA (α := α) k [] = none := rfl

@[simp] theorem lookupA_cons {α : Type} (k : ℕ) (p : ℕ × α) (l : List (ℕ × α)) :
    lookupA k (p :: l) = if p.1 = k then some p.2 else lookupA k l := rfl

@[simp] theorem setA_nil {α : Type} (k : ℕ) (v : α) : setA (α := α) [] k v = [] := rfl

@[simp] theorem setA_cons {α : Type} (p : ℕ × α) (l : List (ℕ × α)) (k : ℕ) (v : α) :
    setA (p :: l) k v = (if p.1 = k then (k, v) else p) :: setA l k v := rfl

theorem lookupA_setA_self {α : Type} (l : List (ℕ × α)) (k : ℕ) (v : α) :
    lookupA k (setA l k v) = if (lookupA k l).isSome then some v else none := by
  induction l with
  | nil => simp
  | cons p l ih =>
    by_cases h : p.1 = k <;> simp [h, ih]

theorem lookupA_setA_ne {α : Type} (l : List (ℕ × α)) (k k' : ℕ) (v : α) (h : k' ≠ k) :
    lookupA k' (setA l k v) = lookupA k' l := by
  induction l with
  | nil => simp
  | cons p l ih =>
    by_cases hp : p.1 = k
    · rw [setA_cons, if_pos hp, lookupA_cons, lookupA_cons]
      have h1 : ¬ ((k, v).1 = k') := fun he => h (by simpa using he.symm)
      have h2 : ¬ (p.1 = k') := by rw [hp]; exact fun he => h he.symm
      rw [if_neg h1, if_neg h2, ih]
    · rw [setA_cons, if_neg hp, lookupA_cons, lookupA_cons]
      by_cases hp' : p.1 = k'
      · rw [if_pos hp', if_pos hp']
      · rw [if_neg hp', if_neg hp', ih]

theorem delA_cons {α : Type} (p : ℕ × α) (l : List (ℕ × α)) (k : ℕ) :
    delA (p :: l) k = if p.1 = k then delA l k else p :: delA l k := by
  by_cases hp : p.1 = k <;> simp [delA, hp]

theorem lookupA_delA_ne {α : Type} (l : List (ℕ × α)) (k k' : ℕ) (h : k' ≠ k) :
    lookupA k' (delA l k) = lookupA k' l := by
  induction l with
  | nil => rfl
  | cons p l ih =>
    rw [delA_cons]
    by_cases hp : p.1 = k
    · rw [if_pos hp, ih, lookupA_cons]
      have h2 : ¬ (p.1 = k') := by rw [hp]; exact fun he => h he.symm
      rw [if_neg h2]
    · rw [if_neg hp, lookupA_cons, lookupA_cons, ih]

theorem lookupA_isSome_of_eq_some {α : Type} {l : List (ℕ × α)} {k : ℕ} {v : α}
    (h : lookupA k l = some v) : (lookupA k l).isSome := by
  rw [h]; rfl

theorem Cent.abs {q : ℚ} (h : Cent q) : Cent |q| := by
  rcases abs_cases q with ⟨he, _⟩ | ⟨he, _⟩
  · rw [he]; exact h
  · rw [he]; exact h.neg

theorem mem_of_lookupA {α : Type} {l : List (ℕ × α)} {k : ℕ} {v : α}
    (h : lookupA k l = some v) : (k, v) ∈ l := by
  induction l with
  | nil => simp at h
  | cons p l ih =>
    rw [lookupA_cons] at h
    by_cases hp : p.1 = k
    · rw [if_pos hp] at h
      injection h with hv
      have hpe : p = (k, v) := Prod.ext hp hv
      rw [← hpe]
      exact List.mem_cons_self p l
    · rw [if_neg hp] at h
      exact List.mem_cons_of_mem p (ih h)

theorem setA_of_not_mem {α : Type} {l : List (ℕ × α)} {k : ℕ} (v : α)
    (h : k ∉ l.map Prod.fst) : setA l k v = l := by
  induction l with
  | nil => rfl
  | cons p l ih =>
    simp only [List.map_cons, List.mem_cons] at h
    push_neg at h
    rw [setA_cons, if_neg (fun he => h.1 he.symm), ih h.2]

theorem delA_of_not_mem {α : Type} {l : List (ℕ × α)} {k : ℕ}
    (h : k ∉ l.map Prod.fst) : delA l k = l := by
  induction l with
  | nil => rfl
  | cons p l ih =>
    simp only [List.map_cons, List.mem_cons] at h
    push_neg at h
    rw [delA_cons, if_neg (fun he => h.1 he.symm), ih h.2]

theorem keys_setA {α : Type} (l : List (ℕ × α)) (k : ℕ) (v : α) :
    (setA l k v).map Prod.fst = l.map Prod.fst := by
  induction l with
  | nil => rfl
  | cons p l ih =>
    by_cases hp : p.1 = k
    · simp only [setA_cons, if_pos hp, List.map_cons, ih]
      rw [hp]
    · simp only [setA_cons, if_neg hp, List.map_cons, ih]

theorem lookupA_setA_isSome {α : Type} (l : List (ℕ × α)) (k k' : ℕ) (v : α) :
    (lookupA k' (setA l k v)).isSome = (lookupA k' l).isSome := by
  by_cases h : k' = k
  · subst h
    rw [lookupA_setA_self]
    by_cases hs : (lookupA k' l).isSome
    · rw [if_pos hs, hs]; rfl
    · rw [if_neg hs]
      cases ho : lookupA k' l with
      | none => rfl
      | some w => rw [ho] at hs; exact absurd rfl hs
  · rw [lookupA_setA_ne l k k' v h]

theorem mem_setA_elim {α : Type} {l : List (ℕ × α)} {k : ℕ} {v : α} {p : ℕ × α}
    (h : p ∈ setA l k v) : p = (k, v) ∨ (p ∈ l ∧ p.1 ≠ k) := by
  induction l with
  | nil => simp at h
  | cons q l ih =>
    rw [setA_cons] at h
    rcases List.mem_cons.mp h with he | hm
    · by_cases hq : q.1 = k
      · rw [if_pos hq] at he; exact Or.inl he
      · rw [if_neg hq] at he
        exact Or.inr ⟨List.mem_cons.mpr (Or.inl he), he ▸ hq⟩
    · rcases ih hm with he | ⟨hm', hk⟩
      · exact Or.inl he
      · exact Or.inr ⟨List.mem_cons.mpr (Or.inr hm'), hk⟩

theorem mem_delA_elim {α : Type} {l : List (ℕ × α)} {k : ℕ} {p : ℕ × α}
    (h : p ∈ delA l k) : p ∈ l ∧ p.1 ≠ k := by
  have := List.mem_filter.mp h
  refine ⟨this.1, ?_⟩
  simpa using this.2

theorem delA_sublist {α : Type} (l : List (ℕ × α)) (k : ℕ) : (delA l k).Sublist l :=
  List.filter_sublist l

theorem linkedSum_cons (i : ℕ) (t : Txn) (l : List (ℕ × Txn)) (a : ℕ) :
    linkedSum ((i, t) :: l) a =
      (if t.accountId = a then signedAmt t else 0) + linkedSum l a := by
  simp [linkedSum]

theorem linkedSum_setA {l : List (ℕ × Txn)} {k : ℕ} {t : Txn}
    (nodup : (l.map Prod.fst).Nodup) (h : lookupA k l = some t) (t' : Txn) (a : ℕ) :
    linkedSum (setA l k t') a =
      linkedSum l a - (if t.accountId = a then signedAmt t else 0) +
        (if t'.accountId = a then signedAmt t' else 0) := by
  induction l with
  | nil => simp at h
  | cons p l ih =>
    rw [lookupA_cons] at h
    simp only [List.map_cons, List.nodup_cons] at nodup
    by_cases hp : p.1 = k
    · rw [if_pos hp] at h
      have hpt : p.2 = t := by injection h
      have hnm : k ∉ l.map Prod.fst := hp ▸ nodup.1
      have hrest : setA l k t' = l := setA_of_not_mem t' hnm
      have hshape : p = (p.1, p.2) := rfl
      rw [setA_cons, if_pos hp, hrest, hshape, hpt, linkedSum_cons, linkedSum_cons]
      ring
    · rw [if_neg hp] at h
      have hshape : p = (p.1, p.2) := rfl
      rw [setA_cons, if_neg hp, hshape, linkedSum_cons, linkedSum_cons, ih nodup.2 h]
      ring

theorem linkedSum_delA {l : List (ℕ × Txn)} {k : ℕ} {t : Txn}
    (nodup : (l.map Prod.fst).Nodup) (h : lookupA k l = some t) (a : ℕ) :
    linkedSum (delA l k) a =
      linkedSum l a - (if t.accountId = a then signedAmt t else 0) := by
  induction l with
  | nil => simp at h
  | cons p l ih =>
    rw [lookupA_cons] at h
    simp only [List.map_cons, List.nodup_cons] at nodup
    by_cases hp : p.1 = k
    · rw [if_pos hp] at h
      have hpt : p.2 = t := by injection h
      have hnm : k ∉ l.map Prod.fst := hp ▸ nodup.1
      have hrest : delA l k = l := delA_of_not_mem hnm
      have hshape : p = (p.1, p.2) := rfl
      rw [delA_cons, if_pos hp, hrest, hshape, hpt, linkedSum_cons]
      ring
    · rw [if_neg hp] at h
      have hshape : p = (p.1, p.2) := rfl
      rw [delA_cons, if_neg hp, hshape, linkedSum_cons, linkedSum_cons, ih nodup.2 h]
      ring

/-! ## Operation case analyses -/

theorem createTransaction_spec (st : St) (r : CreateTxnReq) :
    ((createTransaction st r).1 = st ∧ (createTransaction st r).2 ≠ Resp.created) ∨
    (createTxnValid r = true ∧ ∃ account category,
      lookupA r.accountId st.accounts = some account ∧ account.isActive = true ∧
      lookupA r.categoryId st.categories = some category ∧ category.isActive = true ∧
      category.ctype = r.ttype ∧ 0 < |r.amount| ∧
      createTransaction st r =
        ({ st with
           txns := (st.nextTxnId, mkTxnOf r) :: st.txns,
           nextTxnId := st.nextTxnId + 1,
           accounts := setA st.accounts r.accountId
             { account with balance := jsRound2 (account.balance + rawSigned r) } },
         Resp.created)) := by
  by_cases hv : createTxnValid r = true
  · rcases hacc : lookupA r.accountId st.accounts with _ | account
    · left; simp [createTransaction, hv, hacc]
    · by_cases hact : account.isActive = true
      · rcases hcat : lookupA r.categoryId st.categories with _ | category
        · left; simp [createTransaction, hv, hacc, hact, hcat]
        · by_cases hcct : category.isActive = true ∧ category.ctype = r.ttype
          · by_cases hamt : |r.amount| ≤ 0
            · left; simp [createTransaction, hv, hacc, hact, hcat, hcct, hamt]
            · right
              refine ⟨hv, account, category, hacc ▸ rfl, hact, hcat ▸ rfl, hcct.1, hcct.2,
                lt_of_not_le hamt, ?_⟩
              cases ht : r.ttype <;>
                simp [createTransaction, hv, hacc, hact, hcat, hcct, hamt, ht,
                  mkTxnOf, rawSigned, sub_eq_add_neg]
          · left; simp [createTransaction, hv, hacc, hact, hcat, hcct]
      · left; simp [createTransaction, hv, hacc, hact]
  · left; simp [createTransaction, hv]

theorem updateTransaction_spec (st : St) (txnId : ℕ) (u : TxnUpdates) :
    ((updateTransaction st txnId u).1 = st ∧ (updateTransaction st txnId u).2 ≠ Resp.ok ∧
      (updateTransaction st txnId u).2 ≠ Resp.serverError) ∨
    (∃ t, lookupA txnId st.txns = some t ∧
      lookupA t.accountId st.accounts = none ∧
      (updateTransaction st txnId u).1 = { st with txns := setA st.txns txnId (updTxn t u) } ∧
      (updateTransaction st txnId u).2 = Resp.serverError) ∨
    (updateTxnValid u = true ∧ ∃ t oldAccount,
      lookupA txnId st.txns = some t ∧
      lookupA t.accountId st.accounts = some oldAccount ∧
      (∀ nc, u.categoryId = some nc →
        ∃ c, lookupA nc st.categories = some c ∧ c.isActive = true ∧
          c.ctype = u.ttype.getD t.ttype) ∧
      (((updTxn t u).accountId = t.accountId ∧
        updateTransaction st txnId u =
          ({ st with
             txns := setA st.txns txnId (updTxn t u),
             accounts := setA st.accounts t.accountId
               { oldAccount with
                 balance := jsRound2
                   (jsRound2 (oldAccount.balance - signedAmt t) + signedAmt (updTxn t u)) } },
           Resp.ok)) ∨
       ((updTxn t u).accountId ≠ t.accountId ∧ ∃ newAccount,
        lookupA (updTxn t u).accountId st.accounts = some newAccount ∧
        newAccount.isActive = true ∧
        updateTransaction st txnId u =
          ({ st with
             txns := setA st.txns txnId (updTxn t u),
             accounts := setA (setA st.accounts t.accountId
                 { oldAccount with balance := jsRound2 (oldAccount.balance - signedAmt t) })
               (updTxn t u).accountId
               { newAccount with
                 balance := jsRound2 (newAccount.balance + signedAmt (updTxn t u)) } },
           Resp.ok)))) := by
  by_cases hv : updateTxnValid u = true
  · rcases ht : lookupA txnId st.txns with _ | t
    · left; simp [updateTransaction, hv, ht]
    · rcases huc : u.categoryId with _ | nc
      · -- no category submitted
        rcases hua : u.accountId with _ | na
        · -- account unchanged
          rcases hoa : lookupA t.accountId st.accounts with _ | oldAccount
          · right; left
            refine ⟨t, rfl, hoa, ?_, ?_⟩ <;>
              simp [updateTransaction, hv, ht, huc, hua, hoa, updTxn]
          · right; right
            refine ⟨hv, t, oldAccount, rfl, hoa, by simp [huc], Or.inl ⟨by simp [updTxn, hua], ?_⟩⟩
            rcases hut : u.ttype with _ | uty
            · cases htt : t.ttype <;>
                simp [updateTransaction, hv, ht, huc, hua, hoa, hut, htt, updTxn,
                  signedAmt, sub_eq_add_neg, sub_neg_eq_add]
            · cases uty <;> cases htt : t.ttype <;>
                simp [updateTransaction, hv, ht, huc, hua, hoa, hut, htt, updTxn,
                  signedAmt, sub_eq_add_neg, sub_neg_eq_add]
        · by_cases hna : na = t.accountId
          · -- account submitted but unchanged
            rcases hoa : lookupA t.accountId st.accounts with _ | oldAccount
            · right; left
              refine ⟨t, rfl, hoa, ?_, ?_⟩ <;>
                simp [updateTransaction, hv, ht, huc, hua, hna, hoa, updTxn]
            · right; right
              refine ⟨hv, t, oldAccount, rfl, hoa, by simp [huc],
                Or.inl ⟨by simp [updTxn, hua, hna], ?_⟩⟩
              rcases hut : u.ttype with _ | uty
              · cases htt : t.ttype <;>
                  simp [updateTransaction, hv, ht, huc, hua, hna, hoa, hut, htt, updTxn,
                    signedAmt, sub_eq_add_neg, sub_neg_eq_add]
              · cases uty <;> cases htt : t.ttype <;>
                  simp [updateTransaction, hv, ht, huc, hua, hna, hoa, hut, htt, updTxn,
                    signedAmt, sub_eq_add_neg, sub_neg_eq_add]
          · -- switching to a different account
            rcases hacc2 : lookupA na st.accounts with _ | newAccount
            · left; simp [updateTransaction, hv, ht, huc, hua, hna, hacc2]
            · by_cases hact2 : newAccount.isActive = true
              · rcases hoa : lookupA t.accountId st.accounts with _ | oldAccount
                · right; left
                  refine ⟨t, rfl, hoa, ?_, ?_⟩ <;>
                    simp [updateTransaction, hv, ht, huc, hua, hna, hacc2, hact2, hoa, updTxn]
                · right; right
                  refine ⟨hv, t, oldAccount, rfl, hoa, by simp [huc],
                    Or.inr ⟨by simp [updTxn, hua, hna], newAccount,
                      by simp [updTxn, hua, hacc2], hact2, ?_⟩⟩
                  rcases hut : u.ttype with _ | uty
                  · cases htt : t.ttype <;>
                      simp [updateTransaction, hv, ht, huc, hua, hna, Ne.symm hna, hacc2, hact2, hoa,
                        hut, htt, updTxn, signedAmt, sub_eq_add_neg, sub_neg_eq_add]
                  · cases uty <;> cases htt : t.ttype <;>
                      simp [updateTransaction, hv, ht, huc, hua, hna, Ne.symm hna, hacc2, hact2, hoa,
                        hut, htt, updTxn, signedAmt, sub_eq_add_neg, sub_neg_eq_add]
              · left; simp [updateTransaction, hv, ht, huc, hua, hna, hacc2, hact2]
      · -- category submitted
        rcases hcat2 : lookupA nc st.categories with _ | c
        · left
          rcases hua : u.accountId with _ | na
          · simp [updateTransaction, hv, ht, huc, hua, hcat2]
          · by_cases hna : na = t.accountId
            · simp [updateTransaction, hv, ht, huc, hua, hna, hcat2]
            · rcases hacc2 : lookupA na st.accounts with _ | newAccount
              · simp [updateTransaction, hv, ht, huc, hua, hna, hacc2]
              · by_cases hact2 : newAccount.isActive = true
                · simp [updateTransaction, hv, ht, huc, hua, hna, hacc2, hact2, hcat2]
                · simp [updateTransaction, hv, ht, huc, hua, hna, hacc2, hact2]
        · by_cases hcok : c.isActive = true ∧ c.ctype = u.ttype.getD t.ttype
          · have hcatCond : ∀ nc', some nc = some nc' →
                ∃ c', lookupA nc' st.categories = some c' ∧ c'.isActive = true ∧
                  c'.ctype = u.ttype.getD t.ttype := by
              intro nc' hnc'
              injection hnc' with hee
              exact ⟨c, hee ▸ hcat2, hcok.1, hcok.2⟩
            rcases hua : u.accountId with _ | na
            · rcases hoa : lookupA t.accountId st.accounts with _ | oldAccount
              · right; left
                refine ⟨t, rfl, hoa, ?_, ?_⟩ <;>
                  simp [updateTransaction, hv, ht, huc, hua, hcat2, hcok, hoa, updTxn]
              · right; right
                refine ⟨hv, t, oldAccount, rfl, hoa, hcatCond,
                  Or.inl ⟨by simp [updTxn, hua], ?_⟩⟩
                rcases hut : u.ttype with _ | uty
                · cases htt : t.ttype <;>
                    simp [updateTransaction, hv, ht, huc, hua, hcat2, hcok, hoa, hut, htt,
                      updTxn, signedAmt, sub_eq_add_neg, sub_neg_eq_add]
                · cases uty <;> cases htt : t.ttype <;>
                    simp [updateTransaction, hv, ht, huc, hua, hcat2, hcok, hoa, hut, htt,
                      updTxn, signedAmt, sub_eq_add_neg, sub_neg_eq_add]
            · by_cases hna : na = t.accountId
              · rcases hoa : lookupA t.accountId st.accounts with _ | oldAccount
                · right; left
                  refine ⟨t, rfl, hoa, ?_, ?_⟩ <;>
                    simp [updateTransaction, hv, ht, huc, hua, hna, hcat2, hcok, hoa, updTxn]
                · right; right
                  refine ⟨hv, t, oldAccount, rfl, hoa, hcatCond,
                    Or.inl ⟨by simp [updTxn, hua, hna], ?_⟩⟩
                  rcases hut : u.ttype with _ | uty
                  · cases htt : t.ttype <;>
                      simp [updateTransaction, hv, ht, huc, hua, hna, hcat2, hcok, hoa,
                        hut, htt, updTxn, signedAmt, sub_eq_add_neg, sub_neg_eq_add]
                  · cases uty <;> cases htt : t.ttype <;>
                      simp [updateTransaction, hv, ht, huc, hua, hna, hcat2, hcok, hoa,
                        hut, htt, updTxn, signedAmt, sub_eq_add_neg, sub_neg_eq_add]
              · rcases hacc2 : lookupA na st.accounts with _ | newAccount
                · left; simp [updateTransaction, hv, ht, huc, hua, hna, hacc2]
                · by_cases hact2 : newAccount.isActive = true
                  · rcases hoa : lookupA t.accountId st.accounts with _ | oldAccount
                    · right; left
                      refine ⟨t, rfl, hoa, ?_, ?_⟩ <;>
                        simp [updateTransaction, hv, ht, huc, hua, hna, hacc2, hact2,
                          hcat2, hcok, hoa, updTxn]
                    · right; right
                      refine ⟨hv, t, oldAccount, rfl, hoa, hcatCond,
                        Or.inr ⟨by simp [updTxn, hua, hna], newAccount,
                          by simp [updTxn, hua, hacc2], hact2, ?_⟩⟩
                      rcases hut : u.ttype with _ | uty
                      · cases htt : t.ttype <;>
                          simp [updateTransaction, hv, ht, huc, hua, hna, Ne.symm hna, hacc2, hact2,
                            hcat2, hcok, hoa, hut, htt, updTxn, signedAmt,
                            sub_eq_add_neg, sub_neg_eq_add]
                      · cases uty <;> cases htt : t.ttype <;>
                          simp [updateTransaction, hv, ht, huc, hua, hna, Ne.symm hna, hacc2, hact2,
                            hcat2, hcok, hoa, hut, htt, updTxn, signedAmt,
                            sub_eq_add_neg, sub_neg_eq_add]
                  · left; simp [updateTransaction, hv, ht, huc, hua, hna, hacc2, hact2]
          · left
            rcases hua : u.accountId with _ | na
            · simp [updateTransaction, hv, ht, huc, hua, hcat2, hcok]
            · by_cases hna : na = t.accountId
              · simp [updateTransaction, hv, ht, huc, hua, hna, hcat2, hcok]
              · rcases hacc2 : lookupA na st.accounts with _ | newAccount
                · simp [updateTransaction, hv, ht, huc, hua, hna, hacc2]
                · by_cases hact2 : newAccount.isActive = true
                  · simp [updateTransaction, hv, ht, huc, hua, hna, hacc2, hact2, hcat2, hcok]
                  · simp [updateTransaction, hv, ht, huc, hua, hna, hacc2, hact2]
  · left; simp [updateTransaction, hv]

theorem deleteTransaction_spec (st : St) (txnId : ℕ) :
    ((deleteTransaction st txnId).1 = st ∧ (deleteTransaction st txnId).2 = Resp.notFound) ∨
    (∃ t, lookupA txnId st.txns = some t ∧
      ((lookupA t.accountId st.accounts = none ∧
        deleteTransaction st txnId = ({ st with txns := delA st.txns txnId }, Resp.ok)) ∨
       (∃ account, lookupA t.accountId st.accounts = some account ∧
        deleteTransaction st txnId =
          ({ st with
             accounts := setA st.accounts t.accountId
               { account with balance := jsRound2 (account.balance - signedAmt t) },
             txns := delA st.txns txnId }, Resp.ok)))) := by
  rcases ht : lookupA txnId st.txns with _ | t
  · left; simp [deleteTransaction, ht]
  · right
    rcases hoa : lookupA t.accountId st.accounts with _ | account
    · exact ⟨t, rfl, Or.inl ⟨hoa, by simp [deleteTransaction, ht, hoa]⟩⟩
    · refine ⟨t, rfl, Or.inr ⟨account, hoa, ?_⟩⟩
      cases htt : t.ttype <;>
        simp [deleteTransaction, ht, hoa, htt, signedAmt, sub_eq_add_neg, sub_neg_eq_add]

theorem createAccount_spec (st : St) (r : CreateAccReq) :
    ((createAccount st r).1 = st ∧ (createAccount st r).2 ≠ Resp.created) ∨
    (createAccount st r =
      ({ st with
         accounts := st.accounts ++ [(st.nextAccId, mkAccountOf r)],
         nextAccId := st.nextAccId + 1 }, Resp.created)) := by
  by_cases hv : createAccValid r = true
  · by_cases hdup :
      st.accounts.any (fun p => p.2.isActive && decide (p.2.name = r.name.trim)) = true
    · left; simp [createAccount, hv, hdup]
    · right; simp [createAccount, hv, hdup]
  · left; simp [createAccount, hv]

theorem updateAccount_spec (st : St) (accId : ℕ) (u : AccUpdates) :
    ((updateAccount st accId u).1 = st ∧ (updateAccount st accId u).2 ≠ Resp.ok) ∨
    (updateAccValid u = true ∧ ∃ account, lookupA accId st.accounts = some account ∧
      0 ≤ (updAcc account u).creditLimit ∧
      updateAccount st accId u =
        ({ st with accounts := setA st.accounts accId (updAcc account u) }, Resp.ok)) := by
  by_cases hv : updateAccValid u = true
  · rcases ha : lookupA accId st.accounts with _ | account
    · left; simp [updateAccount, hv, ha]
    · by_cases hnc : nameClashB st.accounts accId account u = true
      · left; simp [updateAccount, hv, ha, hnc]
      · by_cases hcl : (updAcc account u).creditLimit < 0
        · left; simp [updateAccount, hv, ha, hnc, hcl]
        · right
          exact ⟨hv, account, rfl, le_of_not_lt hcl,
            by simp [updateAccount, hv, ha, hnc, hcl]⟩
  · left; simp [updateAccount, hv]

theorem createBudget_spec (st : St) (r : CreateBudgetReq) :
    ((createBudget st r).1 = st ∧ (createBudget st r).2 ≠ Resp.created) ∨
    (st.budgets.any (fun p => decide (p.2.categoryId = r.categoryId) && p.2.isActive &&
        overlaps p.2 r.startDate r.endDate) = false ∧
      r.startDate < r.endDate ∧
      createBudget st r =
        ({ st with
           budgets := st.budgets ++ [(st.nextBudgetId, mkBudgetOf r)],
           nextBudgetId := st.nextBudgetId + 1 }, Resp.created)) := by
  by_cases hv : createBudgetValid r = true
  · rcases hcat : lookupA r.categoryId st.categories with _ | category
    · left; simp [createBudget, hv, hcat]
    · by_cases hcct : category.ctype = TType.expense ∧ category.isActive = true
      · by_cases hover : st.budgets.any (fun p =>
            decide (p.2.categoryId = r.categoryId) && p.2.isActive &&
              overlaps p.2 r.startDate r.endDate) = true
        · left; simp [createBudget, hv, hcat, hcct, hover]
        · by_cases hdate : r.endDate ≤ r.startDate
          · left; simp [createBudget, hv, hcat, hcct, hover, hdate]
          · right
            refine ⟨by simpa using hover, lt_of_not_le hdate, ?_⟩
            simp [createBudget, hv, hcat, hcct, hover, hdate]
      · left; simp [createBudget, hv, hcat, hcct]
  · left; simp [createBudget, hv]

/-! ## Preservation of the balance invariant -/

theorem Cent.signedAmt {t : Txn} (h : Cent t.amount) : Cent (FinDash.signedAmt t) := by
  unfold FinDash.signedAmt
  cases t.ttype
  · exact h
  · exact h.neg

theorem Cent.rawSigned {r : CreateTxnReq} (h : Cent r.amount) : Cent (FinDash.rawSigned r) := by
  unfold FinDash.rawSigned
  cases r.ttype
  · exact h.abs
  · exact h.abs.neg

theorem jsRound2_rawSigned {r : CreateTxnReq} (h : Cent r.amount) :
    jsRound2 (rawSigned r) = FinDash.signedAmt (mkTxnOf r) := by
  cases htt : r.ttype <;>
    simp [rawSigned, FinDash.signedAmt, mkTxnOf, htt, jsRound2_eq_self h.abs,
      jsRound2_eq_self h.abs.neg]

theorem Cent_updTxn {t : Txn} {u : TxnUpdates} (h : Cent t.amount) :
    Cent (updTxn t u).amount := by
  unfold updTxn
  rcases u.amount with _ | q
  · exact h
  · exact Cent.jsRound2 _

theorem StInv_createTransaction {st : St} {r : CreateTxnReq} (h : StInv st)
    (hc : Cent r.amount) : StInv (createTransaction st r).1 := by
  obtain ⟨hbal, hca, hct, hte, htb, htn⟩ := h
  rcases createTransaction_spec st r with ⟨heq, _⟩ |
    ⟨hv, account, category, hacc, hact, hcat, hcia, hcty, hpos, heq⟩
  · rw [heq]; exact ⟨hbal, hca, hct, hte, htb, htn⟩
  · have haccmem : (r.accountId, account) ∈ st.accounts := mem_of_lookupA hacc
    have hbacc : Cent account.balance := hca _ haccmem
    have heq1 : (createTransaction st r).1 =
        { st with
          txns := (st.nextTxnId, mkTxnOf r) :: st.txns,
          nextTxnId := st.nextTxnId + 1,
          accounts := setA st.accounts r.accountId
            { account with balance := jsRound2 (account.balance + rawSigned r) } } := by
      rw [heq]
    rw [heq1]
    refine ⟨?_, ?_, ?_, ?_, ?_, ?_⟩
    · -- BalInv
      intro p hp
      rcases mem_setA_elim hp with hpe | ⟨hpm, hpne⟩

      · rw [hpe]
        simp only
        rw [jsRound2_add_of_cent hbacc, jsRound2_rawSigned hc,
          linkedSum_cons]
        have : (mkTxnOf r).accountId = r.accountId := rfl
        rw [this, if_pos rfl]
        have hb := hbal _ haccmem
        simp only at hb
        rw [hb]
        ring
      · simp only
        rw [linkedSum_cons]
        have : (mkTxnOf r).accountId = r.accountId := rfl
        rw [this, if_neg (fun he => hpne he.symm), zero_add]
        exact hbal _ hpm
    · -- CentAccounts
      intro p hp
      rcases mem_setA_elim hp with hpe | ⟨hpm, _⟩
      · rw [hpe]; exact Cent.jsRound2 _
      · exact hca _ hpm
    · -- CentTxns
      intro p hp
      rcases List.mem_cons.mp hp with hpe | hpm
      · rw [hpe]; exact Cent.jsRound2 _
      · exact hct _ hpm
    · -- TxnAccountsExist
      intro p hp
      rcases List.mem_cons.mp hp with hpe | hpm
      · rw [hpe]
        have hproj : (st.nextTxnId, mkTxnOf r).2.accountId = r.accountId := rfl
        rw [hproj, lookupA_setA_self, if_pos (lookupA_isSome_of_eq_some hacc)]
        rfl
      · rw [lookupA_setA_isSome]
        exact hte _ hpm
    · -- TxnKeysBound
      intro p hp
      rcases List.mem_cons.mp hp with hpe | hpm
      · rw [hpe]; exact Nat.lt_succ_self _
      · exact Nat.lt_succ_of_lt (htb _ hpm)
    · -- TxnKeysNodup
      show (((st.nextTxnId, mkTxnOf r) :: st.txns).map Prod.fst).Nodup
      simp only [List.map_cons, List.nodup_cons]
      exact ⟨fun hmem => by
        rcases List.mem_map.mp hmem with ⟨q, hq, hqe⟩
        exact absurd (hqe ▸ htb _ hq) (lt_irrefl _), htn⟩

theorem StInv_updateTransaction {st : St} {txnId : ℕ} {u : TxnUpdates} (h : StInv st) :
    StInv (updateTransaction st txnId u).1 := by
  obtain ⟨hbal, hca, hct, hte, htb, htn⟩ := h
  rcases updateTransaction_spec st txnId u with ⟨heq, _, _⟩ |
    ⟨t, ht, hnone, _, _⟩ |
    ⟨hv, t, oldAccount, ht, hoa, hcatc, hbr⟩
  · rw [heq]; exact ⟨hbal, hca, hct, hte, htb, htn⟩
  · exact absurd (hte _ (mem_of_lookupA ht)) (by rw [hnone]; simp)
  · have htm : (txnId, t) ∈ st.txns := mem_of_lookupA ht
    have hcta : Cent t.amount := hct _ htm
    have hoam : (t.accountId, oldAccount) ∈ st.accounts := mem_of_lookupA hoa
    have hcboa : Cent oldAccount.balance := hca _ hoam
    have hct' : Cent (updTxn t u).amount := Cent_updTxn hcta
    have hsg : Cent (signedAmt t) := Cent.signedAmt hcta
    have hsg' : Cent (signedAmt (updTxn t u)) := Cent.signedAmt hct'
    rcases hbr with ⟨hsame, heq⟩ | ⟨hdiff, newAccount, hna, hnact, heq⟩
    · -- same account
      have heq1 : (updateTransaction st txnId u).1 =
          { st with
            txns := setA st.txns txnId (updTxn t u),
            accounts := setA st.accounts t.accountId
              { oldAccount with
                balance := jsRound2
                  (jsRound2 (oldAccount.balance - signedAmt t) + signedAmt (updTxn t u)) } } := by
        rw [heq]
      rw [heq1]
      have hb2 : jsRound2 (jsRound2 (oldAccount.balance - signedAmt t) + signedAmt (updTxn t u))
          = oldAccount.balance - signedAmt t + signedAmt (updTxn t u) := by
        rw [jsRound2_eq_self (hcboa.sub hsg), jsRound2_eq_self ((hcboa.sub hsg).add hsg')]
      refine ⟨?_, ?_, ?_, ?_, ?_, ?_⟩
      · intro p hp
        rcases mem_setA_elim hp with hpe | ⟨hpm, hpne⟩
        · rw [hpe]
          simp only
          rw [hb2, linkedSum_setA htn ht (updTxn t u) t.accountId,
            if_pos rfl, if_pos hsame]
          have hb := hbal _ hoam
          simp only at hb
          rw [hb]
          ring
        · rw [linkedSum_setA htn ht (updTxn t u) p.1,
            if_neg (fun he => hpne he.symm),
            if_neg (fun he => hpne (hsame.symm.trans he).symm),
            sub_zero, add_zero]
          exact hbal _ hpm
      · intro p hp
        rcases mem_setA_elim hp with hpe | ⟨hpm, _⟩
        · rw [hpe]; exact Cent.jsRound2 _
        · exact hca _ hpm
      · intro p hp
        rcases mem_setA_elim hp with hpe | ⟨hpm, _⟩
        · rw [hpe]; exact hct'
        · exact hct _ hpm
      · intro p hp
        rcases mem_setA_elim hp with hpe | ⟨hpm, _⟩
        · rw [hpe]
          have hproj : (txnId, updTxn t u).2.accountId = (updTxn t u).accountId := rfl
          rw [hproj, hsame, lookupA_setA_isSome]
          exact lookupA_isSome_of_eq_some hoa
        · rw [lookupA_setA_isSome]
          exact hte _ hpm
      · intro p hp
        rcases mem_setA_elim hp with hpe | ⟨hpm, _⟩
        · rw [hpe]; exact htb (txnId, t) htm
        · exact htb _ hpm
      · show ((setA st.txns txnId (updTxn t u)).map Prod.fst).Nodup
        rw [keys_setA]
        exact htn
    · -- different accounts
      have hnam : ((updTxn t u).accountId, newAccount) ∈ st.accounts := mem_of_lookupA hna
      have hcbna : Cent newAccount.balance := hca _ hnam
      have heq1 : (updateTransaction st txnId u).1 =
          { st with
            txns := setA st.txns txnId (updTxn t u),
            accounts := setA (setA st.accounts t.accountId
                { oldAccount with balance := jsRound2 (oldAccount.balance - signedAmt t) })
              (updTxn t u).accountId
              { newAccount with
                balance := jsRound2 (newAccount.balance + signedAmt (updTxn t u)) } } := by
        rw [heq]
      rw [heq1]
      have hbo : jsRound2 (oldAccount.balance - signedAmt t)
          = oldAccount.balance - signedAmt t := jsRound2_eq_self (hcboa.sub hsg)
      have hbn : jsRound2 (newAccount.balance + signedAmt (updTxn t u))
          = newAccount.balance + signedAmt (updTxn t u) := jsRound2_eq_self (hcbna.add hsg')
      refine ⟨?_, ?_, ?_, ?_, ?_, ?_⟩
      · intro p hp
        rcases mem_setA_elim hp with hpe | ⟨hp2, hpneNew⟩
        · rw [hpe]
          simp only
          rw [hbn, linkedSum_setA htn ht (updTxn t u) (updTxn t u).accountId,
            if_neg (fun he => hdiff he.symm), if_pos rfl, sub_zero]
          have hb := hbal _ hnam
          simp only at hb
          rw [hb]
          ring
        · rcases mem_setA_elim hp2 with hpe2 | ⟨hpm, hpneOld⟩
          · rw [hpe2]
            simp only
            rw [hbo, linkedSum_setA htn ht (updTxn t u) t.accountId,
              if_pos rfl, if_neg hdiff, add_zero]
            have hb := hbal _ hoam
            simp only at hb
            rw [hb]
            ring
          · rw [linkedSum_setA htn ht (updTxn t u) p.1,
              if_neg (fun he => hpneOld he.symm),
              if_neg (fun he => hpneNew he.symm),
              sub_zero, add_zero]
            exact hbal _ hpm
      · intro p hp
        rcases mem_setA_elim hp with hpe | ⟨hp2, _⟩
        · rw [hpe]; exact Cent.jsRound2 _
        · rcases mem_setA_elim hp2 with hpe2 | ⟨hpm, _⟩
          · rw [hpe2]; exact Cent.jsRound2 _
          · exact hca _ hpm
      · intro p hp
        rcases mem_setA_elim hp with hpe | ⟨hpm, _⟩
        · rw [hpe]; exact hct'
        · exact hct _ hpm
      · intro p hp
        rcases mem_setA_elim hp with hpe | ⟨hpm, _⟩
        · rw [hpe]
          have hproj : (txnId, updTxn t u).2.accountId = (updTxn t u).accountId := rfl
          rw [hproj, lookupA_setA_isSome, lookupA_setA_isSome]
          exact lookupA_isSome_of_eq_some hna
        · rw [lookupA_setA_isSome, lookupA_setA_isSome]
          exact hte _ hpm
      · intro p hp
        rcases mem_setA_elim hp with hpe | ⟨hpm, _⟩
        · rw [hpe]; exact htb (txnId, t) htm
        · exact htb _ hpm
      · show ((setA st.txns txnId (updTxn t u)).map Prod.fst).Nodup
        rw [keys_setA]
        exact htn

theorem StInv_deleteTransaction {st : St} {txnId : ℕ} (h : StInv st) :
    StInv (deleteTransaction st txnId).1 := by
  obtain ⟨hbal, hca, hct, hte, htb, htn⟩ := h
  rcases deleteTransaction_spec st txnId with ⟨heq, _⟩ | ⟨t, ht, hbr⟩
  · rw [heq]; exact ⟨hbal, hca, hct, hte, htb, htn⟩
  · have htm : (txnId, t) ∈ st.txns := mem_of_lookupA ht
    rcases hbr with ⟨hnone, heq⟩ | ⟨account, hoa, heq⟩
    · exact absurd (hte _ htm) (by rw [hnone]; simp)
    · have hoam : (t.accountId, account) ∈ st.accounts := mem_of_lookupA hoa
      have hcba : Cent account.balance := hca _ hoam
      have hsg : Cent (signedAmt t) := Cent.signedAmt (hct _ htm)
      have heq1 : (deleteTransaction st txnId).1 =
          { st with
            accounts := setA st.accounts t.accountId
              { account with balance := jsRound2 (account.balance - signedAmt t) },
            txns := delA st.txns txnId } := by
        rw [heq]
      rw [heq1]
      have hbo : jsRound2 (account.balance - signedAmt t)
          = account.balance - signedAmt t := jsRound2_eq_self (hcba.sub hsg)
      refine ⟨?_, ?_, ?_, ?_, ?_, ?_⟩
      · intro p hp
        rcases mem_setA_elim hp with hpe | ⟨hpm, hpne⟩
        · rw [hpe]
          simp only
          rw [hbo, linkedSum_delA htn ht t.accountId, if_pos rfl]
          have hb := hbal _ hoam
          simp only at hb
          rw [hb]
          ring
        · rw [linkedSum_delA htn ht p.1, if_neg (fun he => hpne he.symm), sub_zero]
          exact hbal _ hpm
      · intro p hp
        rcases mem_setA_elim hp with hpe | ⟨hpm, _⟩
        · rw [hpe]; exact Cent.jsRound2 _
        · exact hca _ hpm
      · intro p hp
        exact hct _ (mem_delA_elim hp).1
      · intro p hp
        rw [lookupA_setA_isSome]
        exact hte _ (mem_delA_elim hp).1
      · intro p hp
        exact htb _ (mem_delA_elim hp).1
      · show ((delA st.txns txnId).map Prod.fst).Nodup
        exact htn.sublist ((delA_sublist st.txns txnId).map Prod.fst)

theorem StInv_step {st : St} {op : Op} (h : StInv st) (hc : TxnOpCentB op = true) :
    StInv (step st op).1 := by
  cases op with
  | createTxn r =>
    have hcc : Cent r.amount := by simpa [TxnOpCentB] using hc
    exact StInv_createTransaction h hcc
  | updateTxn txnId u => exact StInv_updateTransaction h
  | deleteTxn txnId => exact StInv_deleteTransaction h
  | createAcc r => simp [TxnOpCentB] at hc
  | updateAcc accId u => simp [TxnOpCentB] at hc
  | deleteAcc accId => simp [TxnOpCentB] at hc
  | bulkImport rows => simp [TxnOpCentB] at hc
  | createBudgetOp r => simp [TxnOpCentB] at hc
  | updateBudgetOp budgetId u => simp [TxnOpCentB] at hc
  | deleteBudgetOp budgetId => simp [TxnOpCentB] at hc

theorem StInv_run {st : St} {ops : List Op} (h : StInv st)
    (hops : ∀ op ∈ ops, TxnOpCentB op = true) : StInv (run st ops) := by
  induction ops generalizing st with
  | nil => exact h
  | cons op ops ih =>
    exact ih (StInv_step h (hops op (List.mem_cons_self op ops)))
      (fun o ho => hops o (List.mem_cons_of_mem op ho))

theorem linkedSum_eq_income_sub_expense (txns : List (ℕ × Txn)) (a : ℕ) :
    linkedSum txns a = incomeSum txns a - expenseSum txns a := by
  induction txns with
  | nil => simp [linkedSum, incomeSum, expenseSum]
  | cons p l ih =>
    simp only [linkedSum, incomeSum, expenseSum, List.map_cons, List.sum_cons] at ih ⊢
    by_cases ha : p.2.accountId = a
    · cases htt : p.2.ttype
      · have hs : signedAmt p.2 = p.2.amount := by unfold signedAmt; rw [htt]
        rw [if_pos ha, hs, ih]
        simp [ha]
        try ring
      · have hs : signedAmt p.2 = -p.2.amount := by unfold signedAmt; rw [htt]
        rw [if_pos ha, hs, ih]
        simp [ha]
        try ring
    · rw [if_neg ha, if_neg (fun hc => ha hc.1), if_neg (fun hc => ha hc.1), ih]
      ring

/-! ## The claims -/

/-- Claim C1 as amended: for every account and every sequence of
transaction create, update and delete operations whose request
amounts are exact cent multiples, after each operation the account's
stored balance equals its `initialBalance` plus the sum of amounts of
currently-linked income transactions minus the sum of amounts of
currently-linked expense transactions.  The restriction is forced:
validation accepts any float greater than 0, and a create adjusts the
balance by the *raw* absolute amount while the schema setter stores
the *rounded* amount, so a sub-cent expense such as 10.005 makes the
two roundings disagree and breaks the invariant — see the
counterexample.  Quantifying over every operation list covers every
prefix, hence "after each operation". -/
theorem c1_balance_invariant (st : St) (ops : List Op) (h : StInv st)
    (hops : ∀ op ∈ ops, TxnOpCentB op = true) :
    ∀ p ∈ (run st ops).accounts,
      p.2.balance = p.2.initialBalance +
        incomeSum (run st ops).txns p.1 - expenseSum (run st ops).txns p.1 := by
  intro p hp
  have hb := (StInv_run h hops).1 _ hp
  rw [hb, linkedSum_eq_income_sub_expense]
  ring

/-- Witness for C1 at a concrete store and request sequence. -/
theorem c1_balance_invariant_witness :
    StInv sampleSt ∧ (∀ op ∈ sampleOps, TxnOpCentB op = true) ∧
      ∀ p ∈ (run sampleSt sampleOps).accounts,
        p.2.balance = p.2.initialBalance +
          incomeSum (run sampleSt sampleOps).txns p.1 -
            expenseSum (run sampleSt sampleOps).txns p.1 :=
  ⟨of_decide_eq_true (by with_unfolding_all rfl),
   of_decide_eq_true (by with_unfolding_all rfl),
   c1_balance_invariant sampleSt sampleOps
     (of_decide_eq_true (by with_unfolding_all rfl))
     (of_decide_eq_true (by with_unfolding_all rfl))⟩

set_option maxRecDepth 8000 in
/-- Counterexample refuting C1 as stated: a single create of an
expense of `10.005` (= `2001/200`, accepted by `isFloat({gt: 0})`)
from balance 100 stores the rounded amount `10.01` on the transaction
but subtracts the raw amount from the balance before rounding,
leaving the balance at `90` where the invariant requires
`100 − 10.01 = 89.99`.  The balance invariant fails after one
reachable operation. -/
theorem c1_counterexample :
    (createTransaction sampleSt
        { accountId := 1, categoryId := 11, amount := 2001/200, ttype := TType.expense,
          description := "food" }).2 = Resp.created ∧
    lookupA 1 (createTransaction sampleSt
        { accountId := 1, categoryId := 11, amount := 2001/200, ttype := TType.expense,
          description := "food" }).1.accounts =
      some { name := "Main", atype := AccType.checking, balance := 90,
             initialBalance := 100, creditLimit := 0, isActive := true } ∧
    lookupA 0 (createTransaction sampleSt
        { accountId := 1, categoryId := 11, amount := 2001/200, ttype := TType.expense,
          description := "food" }).1.txns =
      some { accountId := 1, categoryId := 11, amount := 1001/100, ttype := TType.expense,
             description := "food" } ∧
    ¬ BalInv (createTransaction sampleSt
        { accountId := 1, categoryId := 11, amount := 2001/200, ttype := TType.expense,
          description := "food" }).1 :=
  of_decide_eq_true (by with_unfolding_all rfl)

/-- Claim C2: a transaction-create request with amount `-5` is
rejected with a validation error and an unchanged store (nothing
persisted, no balance touched), and likewise a request with amount
`0`: amounts must be strictly positive before the sign is derived
from the type. -/
theorem c2_nonpositive_amount_rejected (st : St) (aid cid : ℕ) (ty : TType) (d : String) :
    createTransaction st
        { accountId := aid, categoryId := cid, amount := -5, ttype := ty, description := d } =
      (st, Resp.vfail) ∧
    createTransaction st
        { accountId := aid, categoryId := cid, amount := 0, ttype := ty, description := d } =
      (st, Resp.vfail) := by
  constructor <;>
  · unfold createTransaction
    rw [if_pos]
    intro hcon
    simp only [createTxnValid, Bool.and_eq_true, decide_eq_true_eq] at hcon
    exact absurd hcon.1.1 (by norm_num)

/-- Witness for C2 at a concrete store and request. -/
theorem c2_nonpositive_amount_rejected_witness :
    createTransaction sampleSt
        { accountId := 1, categoryId := 10, amount := -5, ttype := TType.income,
          description := "x" } =
      (sampleSt, Resp.vfail) ∧
    createTransaction sampleSt
        { accountId := 1, categoryId := 10, amount := 0, ttype := TType.income,
          description := "x" } =
      (sampleSt, Resp.vfail) :=
  c2_nonpositive_amount_rejected sampleSt 1 10 TType.income "x"

/-- Claim C4: for prior-month income 2000 and expenses 1600, active
non-credit accounts totalling 4800 and no active budgets, the
financial-health computation yields sub-scores savingsRate 100,
expenseControl 20, emergencyFund 100, debtManagement 100,
budgetAdherence 100, and overall score 88 after the
(0.25, 0.25, 0.20, 0.15, 0.15) weighting and rounding. -/
theorem c4_financial_health_example :
    getFinancialHealth c4txns c4accounts [] =
      { savingsRate := 100, budgetAdherence := 100, emergencyFund := 100,
        expenseControl := 20, debtManagement := 100, overallScore := 88 } := by
  with_unfolding_all rfl

/-- Claim C5 (code bug): the emergency-fund sub-score has no lower
clamp — `Math.min(100, ratio * 100)` only — so at total active
balance −300 and last-month expenses 100 it evaluates to −100,
outside the documented [0, 100] range; it does equal 100 whenever
last-month expenses are 0. -/
theorem c5_emergency_fund_negative :
    emergencyFundScore (-300) 100 = -100 ∧ ∀ b : ℚ, emergencyFundScore b 0 = 100 := by
  constructor
  · with_unfolding_all rfl
  · intro b
    unfold emergencyFundScore
    norm_num

/-- Claim C9 (counterexample): an `.xlsx` upload passes the multer
file filter, so a temporary file is stored, but the handler returns
the `Excel files not yet supported` response before the cleanup line:
the file is not removed. -/
theorem c9_counterexample :
    (uploadRequest "2024-01-01" (some (".xlsx", ParseOutcome.ok []))).stored = true ∧
    (uploadRequest "2024-01-01" (some (".xlsx", ParseOutcome.ok []))).removed = false := by
  constructor <;> with_unfolding_all rfl

/-- Claim C9 as amended: for every upload request that stores a
temporary file with a `.csv` extension, the file is removed before
the response on every outcome — successful parse (including the
empty-result 400) and parse failure alike.  The non-CSV spreadsheet
rejection path returns before cleanup and is excluded. -/
theorem c9_csv_upload_always_cleans_up (today ext : String) (parse : ParseOutcome)
    (h : ext.toLower = ".csv") :
    (uploadRequest today (some (ext, parse))).stored = true ∧
    (uploadRequest today (some (ext, parse))).removed = true := by
  have hacc : multerAccepts ext = true := by
    unfold multerAccepts
    rw [h]
    rfl
  have hr : uploadRequest today (some (ext, parse)) = uploadStored today ext parse := by
    simp [uploadRequest, hacc]
  rw [hr]
  unfold uploadStored
  rw [if_pos h]
  cases parse with
  | ok rows =>
    by_cases hz : (mapCsvToTransactions today rows).length = 0
    · simp [hz]
    · simp [hz]
  | failed => exact ⟨rfl, rfl⟩

/-- Witness for the amended C9 at a concrete CSV upload. -/
theorem c9_csv_upload_always_cleans_up_witness :
    (uploadRequest "2024-01-01" (some (".csv", ParseOutcome.failed))).stored = true ∧
    (uploadRequest "2024-01-01" (some (".csv", ParseOutcome.failed))).removed = true :=
  c9_csv_upload_always_cleans_up "2024-01-01" ".csv" ParseOutcome.failed
    (of_decide_eq_true (by with_unfolding_all rfl))

theorem lookupA_append_of_not_mem {α : Type} {l1 : List (ℕ × α)} {k : ℕ}
    (l2 : List (ℕ × α)) (h : k ∉ l1.map Prod.fst) :
    lookupA k (l1 ++ l2) = lookupA k l2 := by
  induction l1 with
  | nil => rfl
  | cons p l ih =>
    simp only [List.map_cons, List.mem_cons] at h
    push_neg at h
    rw [List.cons_append, lookupA_cons, if_neg (fun he => h.1 he.symm), ih h.2]

theorem initBalance_setA {l : List (ℕ × Account)} {j : ℕ} {a a' : Account}
    (hj : lookupA j l = some a) (hinit : a'.initialBalance = a.initialBalance) :
    ∀ k acc, lookupA k l = some acc →
      ∃ acc', lookupA k (setA l j a') = some acc' ∧
        acc'.initialBalance = acc.initialBalance := by
  intro k acc hk
  by_cases he : k = j
  · subst he
    have haa : a = acc := by rw [hj] at hk; injection hk
    refine ⟨a', ?_, by rw [hinit, haa]⟩
    rw [lookupA_setA_self, if_pos (lookupA_isSome_of_eq_some hk)]
  · exact ⟨acc, by rw [lookupA_setA_ne _ _ _ _ he]; exact hk, rfl⟩

theorem initBalance_applyChanges (changes : List (ℕ × ℚ)) :
    ∀ (accs : List (ℕ × Account)) (k : ℕ) (acc : Account),
      lookupA k accs = some acc →
        ∃ acc', lookupA k (applyChanges accs changes) = some acc' ∧
          acc'.initialBalance = acc.initialBalance := by
  induction changes with
  | nil => exact fun accs k acc h => ⟨acc, h, rfl⟩
  | cons c rest ih =>
    intro accs k acc h
    obtain ⟨k0, ch⟩ := c
    rcases h0 : lookupA k0 accs with _ | a
    · have hred : applyChanges accs ((k0, ch) :: rest) = applyChanges accs rest := by
        simp [applyChanges, h0]
      rw [hred]
      exact ih accs k acc h
    · have hred : applyChanges accs ((k0, ch) :: rest) =
          applyChanges (setA accs k0 { a with balance := a.balance + ch }) rest := by
        simp [applyChanges, h0]
      rw [hred]
      have hinit : ({ a with balance := a.balance + ch } : Account).initialBalance =
          a.initialBalance := rfl
      obtain ⟨acc1, h1, h1i⟩ := initBalance_setA h0 hinit k acc h
      obtain ⟨acc', h2, h2i⟩ := ih _ k acc1 h1
      exact ⟨acc', h2, h2i.trans h1i⟩

theorem bulkImport_accounts (st : St) (rows : List RawRow) :
    (bulkImportTransactions st rows).1.accounts = st.accounts ∨
    ∃ changes, (bulkImportTransactions st rows).1.accounts =
      applyChanges st.accounts changes := by
  by_cases hr : rows.isEmpty = true
  · left; simp [bulkImportTransactions, hr]
  · rcases hf : st.accounts.filter (fun p => p.2.isActive) with _ | ⟨fa, rest⟩
    · left; simp [bulkImportTransactions, hr, hf]
    · by_cases hv :
        (processRows fa.1 (st.categories.filter (fun p => p.2.isActive)) rows).1.isEmpty = true
      · left; simp [bulkImportTransactions, hr, hf, hv]
      · right
        refine ⟨accountChanges
          (processRows fa.1 (st.categories.filter (fun p => p.2.isActive)) rows).1, ?_⟩
        simp [bulkImportTransactions, hr, hf, hv]

/-- Claim C10 as amended: an account update whose payload contains a
`balance` field and no `initialBalance` field overwrites the stored
balance with the submitted value rounded to 2 decimals, changes no
transaction and leaves `initialBalance` untouched — there is no
reconciliation against the account's linked transactions.  (A payload
that also contains an `initialBalance` key would overwrite that field
too, because the handler applies every submitted key.) -/
theorem c10_account_update_overwrites_balance (st : St) (accId : ℕ) (u : AccUpdates)
    (b : ℚ) (acc : Account) (hb : u.balance = some b) (hib : u.initialBalance = none)
    (hok : (updateAccount st accId u).2 = Resp.ok)
    (hacc : lookupA accId st.accounts = some acc) :
    lookupA accId (updateAccount st accId u).1.accounts = some (updAcc acc u) ∧
    (updAcc acc u).balance = jsRound2 b ∧
    (updAcc acc u).initialBalance = acc.initialBalance ∧
    (updateAccount st accId u).1.txns = st.txns := by
  rcases updateAccount_spec st accId u with ⟨_, hne⟩ | ⟨hv, account, ha, hcl, heq⟩
  · exact absurd hok hne
  · have hae : account = acc := by rw [ha] at hacc; injection hacc
    subst hae
    have h1 : (updateAccount st accId u).1 =
        { st with accounts := setA st.accounts accId (updAcc account u) } := by
      rw [heq]
    rw [h1]
    refine ⟨?_, ?_, ?_, rfl⟩
    · rw [lookupA_setA_self, if_pos (lookupA_isSome_of_eq_some ha)]
    · simp [updAcc, hb]
    · simp [updAcc, hib]

/-- Counterexample refuting C10 as stated: an update payload that
contains `balance` *and* an `initialBalance` key succeeds and changes
`initialBalance` (mass assignment through the key-iteration loop), so
"no change to initialBalance" does not hold for every payload
containing a balance field. -/
theorem c10_counterexample :
    (updateAccount sampleSt 1 { balance := some 5, initialBalance := some 99 }).2 =
      Resp.ok ∧
    lookupA 1
        (updateAccount sampleSt 1 { balance := some 5, initialBalance := some 99 }).1.accounts =
      some { name := "Main", atype := AccType.checking, balance := 5,
             initialBalance := 99, creditLimit := 0, isActive := true } ∧
    (99 : ℚ) ≠ 100 :=
  of_decide_eq_true (by with_unfolding_all rfl)

/-- Witness for the amended C10 at a concrete update. -/
theorem c10_account_update_overwrites_balance_witness :
    lookupA 1 (updateAccount sampleSt 1 { balance := some (5678/1000) }).1.accounts =
      some (updAcc mainAcc { balance := some (5678/1000) }) ∧
    (updAcc mainAcc { balance := some (5678/1000) }).balance = jsRound2 (5678/1000) ∧
    (updAcc mainAcc { balance := some (5678/1000) }).initialBalance = mainAcc.initialBalance ∧
    (updateAccount sampleSt 1 { balance := some (5678/1000) }).1.txns = sampleSt.txns :=
  c10_account_update_overwrites_balance sampleSt 1 { balance := some (5678/1000) }
    (5678/1000) mainAcc rfl rfl
    (of_decide_eq_true (by with_unfolding_all rfl))
    (of_decide_eq_true (by with_unfolding_all rfl))

/-- Claim C8 as amended: `initialBalance` is set exactly once, at
first persistence, to the 2-decimal-rounded balance supplied at
creation; transaction create/update/delete, bulk import, and account
updates whose payload omits the `initialBalance` key never change any
account's `initialBalance`.  (An account-update payload containing an
`initialBalance` key overwrites it — see the counterexample.) -/
theorem c8_initial_balance_set_once :
    (∀ (st : St) (r : CreateAccReq), (∀ p ∈ st.accounts, p.1 < st.nextAccId) →
      (createAccount st r).2 = Resp.created →
      lookupA st.nextAccId (createAccount st r).1.accounts = some (mkAccountOf r) ∧
      (mkAccountOf r).initialBalance = jsRound2 r.balance) ∧
    (∀ (st : St) (op : Op), InitPreservingB op = true →
      ∀ (k : ℕ) (acc : Account), lookupA k st.accounts = some acc →
        ∃ acc', lookupA k (step st op).1.accounts = some acc' ∧
          acc'.initialBalance = acc.initialBalance) := by
  constructor
  · intro st r hbound hok
    rcases createAccount_spec st r with ⟨_, hne⟩ | heq
    · exact absurd hok hne
    · have h1 : (createAccount st r).1 =
          { st with
            accounts := st.accounts ++ [(st.nextAccId, mkAccountOf r)],
            nextAccId := st.nextAccId + 1 } := by
        rw [heq]
      rw [h1]
      refine ⟨?_, rfl⟩
      have hnm : st.nextAccId ∉ st.accounts.map Prod.fst := by
        intro hmem
        rcases List.mem_map.mp hmem with ⟨q, hq, hqe⟩
        exact absurd (hqe ▸ hbound _ hq) (lt_irrefl _)
      rw [lookupA_append_of_not_mem _ hnm, lookupA_cons, if_pos rfl]
  · intro st op hpres k acc hk
    cases op with
    | createTxn r =>
      show ∃ acc', lookupA k (createTransaction st r).1.accounts = some acc' ∧
        acc'.initialBalance = acc.initialBalance
      rcases createTransaction_spec st r with ⟨h1, _⟩ |
        ⟨_, account, category, hacc, _, _, _, _, _, heq⟩
      · rw [h1]; exact ⟨acc, hk, rfl⟩
      · have h1 : (createTransaction st r).1.accounts = setA st.accounts r.accountId
            { account with balance := jsRound2 (account.balance + rawSigned r) } := by
          rw [heq]
        rw [h1]
        have hinit : ({ account with
            balance := jsRound2 (account.balance + rawSigned r) } : Account).initialBalance =
            account.initialBalance := rfl
        exact initBalance_setA hacc hinit k acc hk
    | updateTxn txnId u =>
      show ∃ acc', lookupA k (updateTransaction st txnId u).1.accounts = some acc' ∧
        acc'.initialBalance = acc.initialBalance
      rcases updateTransaction_spec st txnId u with ⟨h1, _, _⟩ |
        ⟨t, ht, hnone, h1, _⟩ |
        ⟨_, t, oldAccount, ht, hoa, _, hbr⟩
      · rw [h1]; exact ⟨acc, hk, rfl⟩
      · rw [h1]; exact ⟨acc, hk, rfl⟩
      · rcases hbr with ⟨hsame, heq⟩ | ⟨hdiff, newAccount, hna, _, heq⟩
        · have h1 : (updateTransaction st txnId u).1.accounts = setA st.accounts t.accountId
              { oldAccount with
                balance := jsRound2
                  (jsRound2 (oldAccount.balance - signedAmt t) + signedAmt (updTxn t u)) } := by
            rw [heq]
          rw [h1]
          have hinit : ({ oldAccount with
              balance := jsRound2
                (jsRound2 (oldAccount.balance - signedAmt t) +
                  signedAmt (updTxn t u)) } : Account).initialBalance =
              oldAccount.initialBalance := rfl
          exact initBalance_setA hoa hinit k acc hk
        · have h1 : (updateTransaction st txnId u).1.accounts =
              setA (setA st.accounts t.accountId
                  { oldAccount with balance := jsRound2 (oldAccount.balance - signedAmt t) })
                (updTxn t u).accountId
                { newAccount with
                  balance := jsRound2 (newAccount.balance + signedAmt (updTxn t u)) } := by
            rw [heq]
          rw [h1]
          have hinitOld : ({ oldAccount with
              balance := jsRound2 (oldAccount.balance - signedAmt t) } : Account).initialBalance =
              oldAccount.initialBalance := rfl
          obtain ⟨acc1, hk1, hi1⟩ := initBalance_setA hoa hinitOld k acc hk
          have hna2 : lookupA (updTxn t u).accountId
              (setA st.accounts t.accountId
                { oldAccount with balance := jsRound2 (oldAccount.balance - signedAmt t) }) =
              some newAccount := by
            rw [lookupA_setA_ne _ _ _ _ hdiff]
            exact hna
          have hinitNew : ({ newAccount with
              balance := jsRound2
                (newAccount.balance + signedAmt (updTxn t u)) } : Account).initialBalance =
              newAccount.initialBalance := rfl
          obtain ⟨acc', hk2, hi2⟩ := initBalance_setA hna2 hinitNew k acc1 hk1
          exact ⟨acc', hk2, hi2.trans hi1⟩
    | deleteTxn txnId =>
      show ∃ acc', lookupA k (deleteTransaction st txnId).1.accounts = some acc' ∧
        acc'.initialBalance = acc.initialBalance
      rcases deleteTransaction_spec st txnId with ⟨h1, _⟩ | ⟨t, ht, hbr⟩
      · rw [h1]; exact ⟨acc, hk, rfl⟩
      · rcases hbr with ⟨_, heq⟩ | ⟨account, hoa, heq⟩
        · have h1 : (deleteTransaction st txnId).1.accounts = st.accounts := by rw [heq]
          rw [h1]; exact ⟨acc, hk, rfl⟩
        · have h1 : (deleteTransaction st txnId).1.accounts = setA st.accounts t.accountId
              { account with balance := jsRound2 (account.balance - signedAmt t) } := by
            rw [heq]
          rw [h1]
          have hinit : ({ account with
              balance := jsRound2 (account.balance - signedAmt t) } : Account).initialBalance =
              account.initialBalance := rfl
          exact initBalance_setA hoa hinit k acc hk
    | bulkImport rows =>
      show ∃ acc', lookupA k (bulkImportTransactions st rows).1.accounts = some acc' ∧
        acc'.initialBalance = acc.initialBalance
      rcases bulkImport_accounts st rows with h1 | ⟨changes, h1⟩
      · rw [h1]; exact ⟨acc, hk, rfl⟩
      · rw [h1]; exact initBalance_applyChanges changes st.accounts k acc hk
    | updateAcc accId u =>
      show ∃ acc', lookupA k (updateAccount st accId u).1.accounts = some acc' ∧
        acc'.initialBalance = acc.initialBalance
      have hib : u.initialBalance = none := by
        simpa [InitPreservingB, Option.isNone_iff_eq_none] using hpres
      rcases updateAccount_spec st accId u with ⟨h1, _⟩ | ⟨_, account, ha, _, heq⟩
      · rw [h1]; exact ⟨acc, hk, rfl⟩
      · have h1 : (updateAccount st accId u).1.accounts =
            setA st.accounts accId (updAcc account u) := by
          rw [heq]
        rw [h1]
        have hinit : (updAcc account u).initialBalance = account.initialBalance := by
          simp [updAcc, hib]
        exact initBalance_setA ha hinit k acc hk
    | createAcc r => simp [InitPreservingB] at hpres
    | deleteAcc accId => simp [InitPreservingB] at hpres
    | createBudgetOp r => simp [InitPreservingB] at hpres
    | updateBudgetOp budgetId u => simp [InitPreservingB] at hpres
    | deleteBudgetOp budgetId => simp [InitPreservingB] at hpres

set_option maxRecDepth 4000 in
/-- Counterexample refuting C8 as stated: an account-update payload
that contains an `initialBalance` key is applied verbatim by the
key-iteration loop (the field is not validated or stripped), so a
subsequent operation *can* change `initialBalance`. -/
theorem c8_counterexample :
    (updateAccount sampleSt 1 { initialBalance := some 999 }).2 = Resp.ok ∧
    lookupA 1 (updateAccount sampleSt 1 { initialBalance := some 999 }).1.accounts =
      some { name := "Main", atype := AccType.checking, balance := 100,
             initialBalance := 999, creditLimit := 0, isActive := true } ∧
    (999 : ℚ) ≠ 100 :=
  of_decide_eq_true (by with_unfolding_all rfl)

/-- Witness for the amended C8: a fresh account snapshots its rounded
creation balance, and a balance-only update preserves
`initialBalance`. -/
theorem c8_initial_balance_set_once_witness :
    (lookupA sampleSt.nextAccId
        (createAccount sampleSt
          { name := "Savings", atype := AccType.savings, balance := 10,
            creditLimit := 0 }).1.accounts =
      some (mkAccountOf
        { name := "Savings", atype := AccType.savings, balance := 10,
          creditLimit := 0 }) ∧
      (mkAccountOf
        { name := "Savings", atype := AccType.savings, balance := 10,
          creditLimit := 0 }).initialBalance = jsRound2 10) ∧
    (∃ acc', lookupA 1 (step sampleSt (Op.updateAcc 1 { balance := some 5 })).1.accounts =
        some acc' ∧ acc'.initialBalance = mainAcc.initialBalance) :=
  ⟨c8_initial_balance_set_once.1 sampleSt
      { name := "Savings", atype := AccType.savings, balance := 10, creditLimit := 0 }
      (of_decide_eq_true (by with_unfolding_all rfl))
      (of_decide_eq_true (by with_unfolding_all rfl)),
   c8_initial_balance_set_once.2 sampleSt (Op.updateAcc 1 { balance := some 5 }) rfl 1 mainAcc
     (of_decide_eq_true (by with_unfolding_all rfl))⟩

/-- Claim C7 as amended: after every successful transaction create
the linked category's type equals the transaction's type, and
likewise after every successful update whose payload includes a
`categoryId` (the category is then re-verified against the submitted
or existing type).  An update that changes only `type` skips the
category check and can break the equality — see the counterexample. -/
theorem c7_category_type_consistency :
    (∀ (st : St) (r : CreateTxnReq), (createTransaction st r).2 = Resp.created →
      ∃ t c, lookupA st.nextTxnId (createTransaction st r).1.txns = some t ∧
        lookupA t.categoryId (createTransaction st r).1.categories = some c ∧
        c.ctype = t.ttype) ∧
    (∀ (st : St) (txnId : ℕ) (u : TxnUpdates) (nc : ℕ),
      u.categoryId = some nc → (updateTransaction st txnId u).2 = Resp.ok →
      ∃ t c, lookupA txnId (updateTransaction st txnId u).1.txns = some t ∧
        lookupA t.categoryId (updateTransaction st txnId u).1.categories = some c ∧
        c.ctype = t.ttype) := by
  constructor
  · intro st r hok
    rcases createTransaction_spec st r with ⟨_, hne⟩ |
      ⟨_, account, category, hacc, _, hcat, hcia, hcty, _, heq⟩
    · exact absurd hok hne
    · refine ⟨mkTxnOf r, category, ?_, ?_, ?_⟩
      · have h1 : (createTransaction st r).1.txns =
            (st.nextTxnId, mkTxnOf r) :: st.txns := by rw [heq]
        rw [h1, lookupA_cons, if_pos rfl]
      · have h1 : (createTransaction st r).1.categories = st.categories := by rw [heq]
        rw [h1]
        exact hcat
      · exact hcty
  · intro st txnId u nc hnc hok
    rcases updateTransaction_spec st txnId u with ⟨_, hne, _⟩ |
      ⟨t, ht, _, _, hse⟩ |
      ⟨_, t, oldAccount, ht, hoa, hcatc, hbr⟩
    · exact absurd hok hne
    · rw [hse] at hok; simp at hok
    · obtain ⟨c, hcl, hci, hcty⟩ := hcatc nc hnc
      have hcid : (updTxn t u).categoryId = nc := by simp [updTxn, hnc]
      have htyp : (updTxn t u).ttype = u.ttype.getD t.ttype := rfl
      rcases hbr with ⟨_, heq⟩ | ⟨_, newAccount, _, _, heq⟩
      · refine ⟨updTxn t u, c, ?_, ?_, ?_⟩
        · have h1 : (updateTransaction st txnId u).1.txns =
              setA st.txns txnId (updTxn t u) := by rw [heq]
          rw [h1, lookupA_setA_self, if_pos (lookupA_isSome_of_eq_some ht)]
        · have h1 : (updateTransaction st txnId u).1.categories = st.categories := by rw [heq]
          rw [h1, hcid]
          exact hcl
        · rw [htyp]; exact hcty
      · refine ⟨updTxn t u, c, ?_, ?_, ?_⟩
        · have h1 : (updateTransaction st txnId u).1.txns =
              setA st.txns txnId (updTxn t u) := by rw [heq]
          rw [h1, lookupA_setA_self, if_pos (lookupA_isSome_of_eq_some ht)]
        · have h1 : (updateTransaction st txnId u).1.categories = st.categories := by rw [heq]
          rw [h1, hcid]
          exact hcl
        · rw [htyp]; exact hcty

set_option maxRecDepth 8000 in
/-- Counterexample refuting C7 as stated: create an income
transaction linked to the income category `Salary`, then update only
its `type` to `expense`.  The update succeeds without re-checking the
category, leaving a transaction of type `expense` linked to a
category of type `income`. -/
theorem c7_counterexample :
    (updateTransaction
        (createTransaction sampleSt
          { accountId := 1, categoryId := 10, amount := 25, ttype := TType.income,
            description := "pay" }).1 0 { ttype := some TType.expense }).2 = Resp.ok ∧
    lookupA 0
        (updateTransaction
          (createTransaction sampleSt
            { accountId := 1, categoryId := 10, amount := 25, ttype := TType.income,
              description := "pay" }).1 0 { ttype := some TType.expense }).1.txns =
      some { accountId := 1, categoryId := 10, amount := 25, ttype := TType.expense,
             description := "pay" } ∧
    lookupA 10
        (updateTransaction
          (createTransaction sampleSt
            { accountId := 1, categoryId := 10, amount := 25, ttype := TType.income,
              description := "pay" }).1 0 { ttype := some TType.expense }).1.categories =
      some { name := "Salary", ctype := TType.income, isActive := true } ∧
    TType.income ≠ TType.expense :=
  of_decide_eq_true (by with_unfolding_all rfl)

/-- Witness for the amended C7 at concrete create and update
requests. -/
theorem c7_category_type_consistency_witness :
    (∃ t c, lookupA sampleSt.nextTxnId
        (createTransaction sampleSt
          { accountId := 1, categoryId := 10, amount := 25, ttype := TType.income,
            description := "pay" }).1.txns = some t ∧
      lookupA t.categoryId
        (createTransaction sampleSt
          { accountId := 1, categoryId := 10, amount := 25, ttype := TType.income,
            description := "pay" }).1.categories = some c ∧
      c.ctype = t.ttype) ∧
    (∃ t c, lookupA 0
        (updateTransaction (run sampleSt [sampleOps.headD (Op.deleteTxn 0)]) 0
          { categoryId := some 11, ttype := some TType.expense }).1.txns = some t ∧
      lookupA t.categoryId
        (updateTransaction (run sampleSt [sampleOps.headD (Op.deleteTxn 0)]) 0
          { categoryId := some 11, ttype := some TType.expense }).1.categories = some c ∧
      c.ctype = t.ttype) :=
  ⟨c7_category_type_consistency.1 sampleSt
     { accountId := 1, categoryId := 10, amount := 25, ttype := TType.income,
       description := "pay" }
     (of_decide_eq_true (by with_unfolding_all rfl)),
   c7_category_type_consistency.2 (run sampleSt [sampleOps.headD (Op.deleteTxn 0)]) 0
     { categoryId := some 11, ttype := some TType.expense } 11 rfl
     (of_decide_eq_true (by with_unfolding_all rfl))⟩

/-- Claim C6 as amended: `createBudget` preserves the no-overlap
invariant — in particular a create whose window overlaps an existing
active budget of the same category is rejected with nothing persisted
— but `updateBudget` never re-checks overlap, so an update can
produce two overlapping active budgets (see the counterexample). -/
theorem c6_budget_overlap_on_create :
    (∀ (st : St) (r : CreateBudgetReq), BudgetKeysBound st → NoBudgetOverlap st →
      BudgetKeysBound (createBudget st r).1 ∧ NoBudgetOverlap (createBudget st r).1) ∧
    (∀ (st : St) (r : CreateBudgetReq) (c : Category),
      createBudgetValid r = true →
      lookupA r.categoryId st.categories = some c →
      c.ctype = TType.expense → c.isActive = true →
      st.budgets.any (fun p => decide (p.2.categoryId = r.categoryId) && p.2.isActive &&
        overlaps p.2 r.startDate r.endDate) = true →
      createBudget st r = (st, Resp.conflict)) := by
  constructor
  · intro st r hkb hno
    rcases createBudget_spec st r with ⟨h1, _⟩ | ⟨hover, hdate, heq⟩
    · rw [h1]; exact ⟨hkb, hno⟩
    · have hov : ∀ x ∈ st.budgets,
          ¬(x.2.categoryId = r.categoryId ∧ x.2.isActive = true ∧
            x.2.startDate ≤ r.endDate ∧ x.2.endDate ≥ r.startDate) := by
        intro x hx hcon
        have hb : st.budgets.any (fun p =>
            decide (p.2.categoryId = r.categoryId) && p.2.isActive &&
              overlaps p.2 r.startDate r.endDate) = true :=
          List.any_eq_true.mpr ⟨x, hx,
            by simp [overlaps, hcon.1, hcon.2.1, hcon.2.2.1, hcon.2.2.2]⟩
        rw [hover] at hb
        exact Bool.noConfusion hb
      have h1 : (createBudget st r).1 =
          { st with
            budgets := st.budgets ++ [(st.nextBudgetId, mkBudgetOf r)],
            nextBudgetId := st.nextBudgetId + 1 } := by
        rw [heq]
      rw [h1]
      constructor
      · intro p hp
        rcases List.mem_append.mp hp with hpo | hpn
        · exact Nat.lt_succ_of_lt (hkb _ hpo)
        · rw [List.mem_singleton.mp hpn]
          exact Nat.lt_succ_self _
      · intro p hp q hq hne hpa hqa hcat hcon
        rcases List.mem_append.mp hp with hpo | hpn <;>
          rcases List.mem_append.mp hq with hqo | hqn
        · exact hno p hpo q hqo hne hpa hqa hcat hcon
        · -- q is the new budget
          rw [List.mem_singleton.mp hqn] at hcat hcon
          exact hov p hpo ⟨hcat, hpa, hcon.1, hcon.2⟩
        · -- p is the new budget
          rw [List.mem_singleton.mp hpn] at hcat hcon
          refine hov q hqo ⟨hcat.symm, hqa, ?_, ?_⟩
          · exact hcon.2
          · exact hcon.1
        · rw [List.mem_singleton.mp hpn, List.mem_singleton.mp hqn] at hne
          exact hne rfl
  · intro st r c hv hcl hct hca hover
    simp [createBudget, hv, hcl, hct, hca, hover]

set_option maxRecDepth 8000 in
/-- Counterexample refuting C6 as stated: two budgets for the same
expense category are created with disjoint windows `[0,10]` and
`[20,30]` (both accepted), then the second is updated to `[5,15]`.
The update only checks that the window is nonempty — no overlap
re-check — and succeeds, leaving two overlapping active budgets for
the same category. -/
theorem c6_counterexample :
    (step sampleSt (Op.createBudgetOp
        { categoryId := 11, name := "B1", amount := 100, startDate := 0, endDate := 10,
          alertThreshold := 80 })).2 = Resp.created ∧
    (step (run sampleSt [Op.createBudgetOp
        { categoryId := 11, name := "B1", amount := 100, startDate := 0, endDate := 10,
          alertThreshold := 80 }])
      (Op.createBudgetOp
        { categoryId := 11, name := "B2", amount := 100, startDate := 20, endDate := 30,
          alertThreshold := 80 })).2 = Resp.created ∧
    (step (run sampleSt [Op.createBudgetOp
        { categoryId := 11, name := "B1", amount := 100, startDate := 0, endDate := 10,
          alertThreshold := 80 },
       Op.createBudgetOp
        { categoryId := 11, name := "B2", amount := 100, startDate := 20, endDate := 30,
          alertThreshold := 80 }])
      (Op.updateBudgetOp 1 { startDate := some 5, endDate := some 15 })).2 = Resp.ok ∧
    ¬ NoBudgetOverlap (run sampleSt
      [Op.createBudgetOp
        { categoryId := 11, name := "B1", amount := 100, startDate := 0, endDate := 10,
          alertThreshold := 80 },
       Op.createBudgetOp
        { categoryId := 11, name := "B2", amount := 100, startDate := 20, endDate := 30,
          alertThreshold := 80 },
       Op.updateBudgetOp 1 { startDate := some 5, endDate := some 15 }]) :=
  of_decide_eq_true (by with_unfolding_all rfl)

set_option maxRecDepth 8000 in
/-- Witness for the amended C6: creating a first budget preserves the
invariant on the sample store, and a second create with an
overlapping window is rejected with the store unchanged. -/
theorem c6_budget_overlap_on_create_witness :
    (BudgetKeysBound (createBudget sampleSt
        { categoryId := 11, name := "B1", amount := 100, startDate := 0, endDate := 10,
          alertThreshold := 80 }).1 ∧
      NoBudgetOverlap (createBudget sampleSt
        { categoryId := 11, name := "B1", amount := 100, startDate := 0, endDate := 10,
          alertThreshold := 80 }).1) ∧
    createBudget (run sampleSt [Op.createBudgetOp
        { categoryId := 11, name := "B1", amount := 100, startDate := 0, endDate := 10,
          alertThreshold := 80 }])
      { categoryId := 11, name := "B3", amount := 50, startDate := 5, endDate := 12,
        alertThreshold := 80 } =
      (run sampleSt [Op.createBudgetOp
        { categoryId := 11, name := "B1", amount := 100, startDate := 0, endDate := 10,
          alertThreshold := 80 }], Resp.conflict) :=
  ⟨c6_budget_overlap_on_create.1 sampleSt
     { categoryId := 11, name := "B1", amount := 100, startDate := 0, endDate := 10,
       alertThreshold := 80 }
     (of_decide_eq_true (by with_unfolding_all rfl))
     (of_decide_eq_true (by with_unfolding_all rfl)),
   c6_budget_overlap_on_create.2
     (run sampleSt [Op.createBudgetOp
       { categoryId := 11, name := "B1", amount := 100, startDate := 0, endDate := 10,
         alertThreshold := 80 }])
     { categoryId := 11, name := "B3", amount := 50, startDate := 5, endDate := 12,
       alertThreshold := 80 }
     { name := "Food", ctype := TType.expense, isActive := true }
     (of_decide_eq_true (by with_unfolding_all rfl))
     (of_decide_eq_true (by with_unfolding_all rfl))
     rfl rfl
     (of_decide_eq_true (by with_unfolding_all rfl))⟩

theorem accountChanges_foldl_uniform (f : ℕ) :
    ∀ (ts : List Txn) (c : ℚ), (∀ t ∈ ts, t.accountId = f) →
      ts.foldl (fun m t => addChange m t.accountId (signedAmt t)) [(f, c)] =
        [(f, c + totalSigned ts)] := by
  intro ts
  induction ts with
  | nil =>
    intro c _
    simp [totalSigned]
  | cons t ts ih =>
    intro c hall
    have hts : t.accountId = f := hall t (List.mem_cons_self t ts)
    have hstep : addChange [(f, c)] t.accountId (signedAmt t) = [(f, c + signedAmt t)] := by
      rw [hts]
      simp [addChange, lookupA, setA]
    rw [List.foldl_cons, hstep, ih _ (fun x hx => hall x (List.mem_cons_of_mem t hx))]
    simp [totalSigned, add_assoc]

theorem processRows_accountId (f : ℕ) (cats : List (ℕ × Category)) :
    ∀ (rows : List RawRow), ∀ t ∈ (processRows f cats rows).1, t.accountId = f := by
  intro rows
  induction rows with
  | nil => intro t ht; simp [processRows] at ht
  | cons row rest ih =>
    intro t ht
    simp only [processRows] at ht
    split at ht
    · exact ih t ht
    · split at ht
      · exact ih t ht
      · split at ht
        · exact ih t ht
        · split at ht
          · exact ih t ht
          · rcases List.mem_cons.mp ht with he | hm
            · rw [he]
            · exact ih t hm

/-- Claim C3: the two-row batch `[{amount: 100, description: "Pay",
date: "2024-01-01"}, {amount: -1, description: "", date: ""}]` reports
imported 1 / errors 1 over 2 rows, inserts only the first row, and
applies exactly one balance adjustment of +100 to the importing
user's first active account (balance 100 → 200 on the sample store;
the aggregated adjustment list is exactly `[(1, 100)]`).  In general
every normalized row is assigned to the first active account and the
per-account adjustment is the aggregated signed sum over all valid
rows of the batch, applied once per account. -/
theorem c3_bulk_import :
    ((bulkImportTransactions sampleSt c3rows).2 = Resp.bulk 1 1 2 ∧
     lookupA 1 (bulkImportTransactions sampleSt c3rows).1.accounts =
       some { name := "Main", atype := AccType.checking, balance := 200,
              initialBalance := 100, creditLimit := 0, isActive := true } ∧
     accountChanges
         (processRows 1 (sampleSt.categories.filter (fun p => p.2.isActive)) c3rows).1 =
       [(1, 100)]) ∧
    (∀ (ts : List Txn) (f : ℕ), (∀ t ∈ ts, t.accountId = f) →
      accountChanges ts = if ts.isEmpty then [] else [(f, totalSigned ts)]) ∧
    (∀ (f : ℕ) (cats : List (ℕ × Category)) (rows : List RawRow),
      ∀ t ∈ (processRows f cats rows).1, t.accountId = f) := by
  refine ⟨⟨?_, ?_, ?_⟩, ?_, ?_⟩
  · with_unfolding_all rfl
  · with_unfolding_all rfl
  · with_unfolding_all rfl
  · intro ts f hall
    cases ts with
    | nil => rfl
    | cons t ts =>
      have hts : t.accountId = f := hall t (List.mem_cons_self t ts)
      have hstep : addChange [] t.accountId (signedAmt t) = [(f, signedAmt t)] := by
        rw [hts]
        simp [addChange, lookupA]
      show (t :: ts).foldl (fun m x => addChange m x.accountId (signedAmt x)) [] = _
      rw [List.foldl_cons, hstep,
        accountChanges_foldl_uniform f ts (signedAmt t)
          (fun x hx => hall x (List.mem_cons_of_mem t hx))]
      simp [totalSigned]
  · exact processRows_accountId

/-- Witness for C3's universally quantified conjuncts at concrete
batches. -/
theorem c3_bulk_import_witness :
    (accountChanges
        [{ accountId := 5, categoryId := 7, amount := 100, ttype := TType.income,
           description := "x" },
         { accountId := 5, categoryId := 8, amount := 30, ttype := TType.expense,
           description := "y" }] =
      if ([{ accountId := 5, categoryId := 7, amount := 100, ttype := TType.income,
             description := "x" },
           { accountId := 5, categoryId := 8, amount := 30, ttype := TType.expense,
             description := "y" }] : List Txn).isEmpty then []
      else [(5, totalSigned
        [{ accountId := 5, categoryId := 7, amount := 100, ttype := TType.income,
           description := "x" },
         { accountId := 5, categoryId := 8, amount := 30, ttype := TType.expense,
           description := "y" }])]) ∧
    ({ accountId := 1, categoryId := 10, amount := 100, ttype := TType.income,
       description := "Pay" } : Txn).accountId = 1 :=
  ⟨c3_bulk_import.2.1
     [{ accountId := 5, categoryId := 7, amount := 100, ttype := TType.income,
        description := "x" },
      { accountId := 5, categoryId := 8, amount := 30, ttype := TType.expense,
        description := "y" }] 5
     (of_decide_eq_true (by with_unfolding_all rfl)),
   c3_bulk_import.2.2 1 (sampleSt.categories.filter (fun p => p.2.isActive)) c3rows
     { accountId := 1, categoryId := 10, amount := 100, ttype := TType.income,
       description := "Pay" }
     (of_decide_eq_true (by with_unfolding_all rfl))⟩

end FinDash
